import Mathlib

/-!
Verification of the topology-builder core and the syslog source of the
`vector` repository, as a shallow embedding in Lean 4.

Sections:
* `Syslog` — embedding of `src/sources/syslog.rs`: the RFC 6587
  octet-counting decoder (`octet_decode`, `checked_decode`, `decode`) and
  the event construction function `event_from_str`.
* `Topology` — embedding of `src/topology/builder.rs`:
  `load_enrichment_tables`, `build_pieces`, `build_transform`, and the
  per-sink healthcheck and per-source server tasks.

Rust `HashMap`s are modelled as association lists, byte buffers as
`List Nat`, futures as explicit poll data, and fallible component
constructors as `Except String` values carried by the configuration.
-/

set_option autoImplicit false

deriving instance DecidableEq for Except

namespace Syslog

/-- Is `b` a UTF-8 continuation byte (`0x80..=0xBF`)? -/
def isCont (b : Nat) : Bool := 0x80 ≤ b && b ≤ 0xBF

/-- Validity of a byte sequence as UTF-8, following the table used by Rust
`std::str::from_utf8` (RFC 3629: no overlongs, no surrogates, max U+10FFFF). -/
def validUtf8 : List Nat → Bool
  | [] => true
  | b :: rest =>
    if b ≤ 0x7F then validUtf8 rest
    else if 0xC2 ≤ b && b ≤ 0xDF then
      match rest with
      | c1 :: r => isCont c1 && validUtf8 r
      | [] => false
    else if b = 0xE0 then
      match rest with
      | c1 :: c2 :: r => (0xA0 ≤ c1 && c1 ≤ 0xBF) && isCont c2 && validUtf8 r
      | _ => false
    else if (0xE1 ≤ b && b ≤ 0xEC) || b = 0xEE || b = 0xEF then
      match rest with
      | c1 :: c2 :: r => isCont c1 && isCont c2 && validUtf8 r
      | _ => false
    else if b = 0xED then
      match rest with
      | c1 :: c2 :: r => (0x80 ≤ c1 && c1 ≤ 0x9F) && isCont c2 && validUtf8 r
      | _ => false
    else if b = 0xF0 then
      match rest with
      | c1 :: c2 :: c3 :: r =>
        (0x90 ≤ c1 && c1 ≤ 0xBF) && isCont c2 && isCont c3 && validUtf8 r
      | _ => false
    else if 0xF1 ≤ b && b ≤ 0xF3 then
      match rest with
      | c1 :: c2 :: c3 :: r => isCont c1 && isCont c2 && isCont c3 && validUtf8 r
      | _ => false
    else if b = 0xF4 then
      match rest with
      | c1 :: c2 :: c3 :: r =>
        (0x80 ≤ c1 && c1 ≤ 0x8F) && isCont c2 && isCont c3 && validUtf8 r
      | _ => false
    else false

/-- Is `b` an ASCII decimal digit? -/
def isDigitByte (b : Nat) : Bool := 48 ≤ b && b ≤ 57

/-- Rust `str::from_utf8(bytes)` followed by `str::parse::<usize>()` on the
length prefix of `octet_decode`: succeeds exactly on `\x2b?[0-9]+` (an
optional leading plus sign, then one or more ASCII digits) whose value fits
in a 64-bit `usize`. Any byte sequence that is not valid UTF-8 also contains
a non-digit byte, so both failure modes collapse to `none`. -/
def rustParseUsize (bs : List Nat) : Option Nat :=
  let digits := match bs with
    | 43 :: rest => rest
    | other => other
  if digits ≠ [] && digits.all isDigitByte then
    let v := digits.foldl (fun a b => a * 10 + (b - 48)) 0
    if v < 2 ^ 64 then some v else none
  else none

/-- Model of `tokio_util::codec::LinesCodec` as the `SyslogDecoder` sees it:
a maximum frame length plus an opaque decode function (the newline-delimited
fallback codec, whose internals are outside the embedded source). -/
structure LinesCodec where
  max_length : Nat
  decodeFn : List Nat → Except String (Option (List Nat) × List Nat)

/-- Model of `SyslogDecoder`: it owns a `LinesCodec` used both for its
`max_length` and as the non-octet-counting fallback. -/
structure SyslogDecoder where
  other : LinesCodec

/-- Embedding of `SyslogDecoder::octet_decode`. The byte buffer is a
`List Nat`; the result carries the decoded frame (as its bytes) and the
remaining buffer (the source advances `src` in place). -/
def octet_decode (d : SyslogDecoder) (src : List Nat) :
    Except String (Option (List Nat) × List Nat) :=
  match src.findIdx? (fun b => b == 32) with
  | some i =>
    match rustParseUsize (src.take i) with
    | none => .error "Unable to decode message len as number"
    | some len =>
      let frm := i + 1
      let toEnd := frm + len
      if toEnd ≤ src.length then
        let msg := (src.drop frm).take len
        if validUtf8 msg then .ok (some msg, src.drop toEnd)
        else .error "Unable to decode message as UTF8"
      else
        .ok (none, src)
  | none =>
    if src.length < d.other.max_length then .ok (none, src)
    else .error "Frame length limit exceeded"

/-- Embedding of `SyslogDecoder::checked_decode`: `none` when the buffer does
not start with a non-zero ASCII digit (octet counting not in use). -/
def checked_decode (d : SyslogDecoder) (src : List Nat) :
    Option (Except String (Option (List Nat) × List Nat)) :=
  match src with
  | b :: _ => if 49 ≤ b && b ≤ 57 then some (octet_decode d src) else none
  | [] => none

/-- Embedding of `<SyslogDecoder as Decoder>::decode`: octet-counting when
detected, otherwise the newline-delimited fallback codec. -/
def decode (d : SyslogDecoder) (src : List Nat) :
    Except String (Option (List Nat) × List Nat) :=
  match checked_decode d src with
  | some ret => ret
  | none => d.other.decodeFn src

/-- Log event values (`event::Value`), restricted to the variants
`event_from_str` produces: strings, integers and timestamps. Timestamps are
modelled as abstract instants (`Nat`). -/
inductive Value where
  | str (s : String)
  | int (n : Int)
  | ts (t : Nat)
deriving DecidableEq, Repr

/-- A lookup path (`LookupBuf`): a list of segments. -/
abbrev LookupBuf := List String

/-- A log event, modelled as a flat association list from lookup paths to
values; `insert` overwrites the value at an existing path and appends new
paths at the end (the nesting of `LogEvent` is external to the embedded
source, which only calls `insert` at whole paths). -/
abbrev LogEvent := List (LookupBuf × Value)

/-- Insert (or overwrite) the value at path `k`. -/
def LogEvent.insert (log : LogEvent) (k : LookupBuf) (v : Value) : LogEvent :=
  if log.any (fun p => p.1 = k) then
    log.map (fun p => if p.1 = k then (k, v) else p)
  else log ++ [(k, v)]

/-- Insert `v` at `k` when present; otherwise leave the event unchanged.
Mirrors the `if let Some(x) = ... \x7b log.insert(key, x) \x7d` shape used by
`insert_fields_from_syslog`. -/
def LogEvent.insertOpt (log : LogEvent) (k : LookupBuf) (v : Option Value) :
    LogEvent :=
  match v with
  | some v => log.insert k v
  | none => log

/-- Value at path `k`, if any. -/
def LogEvent.find (log : LogEvent) (k : LookupBuf) : Option Value :=
  (log.find? (fun p => p.1 = k)).map (fun p => p.2)

/-- Modelled from the spec: the process-wide `log_schema()` key for the
source type; the external default schema names it `source_type`. -/
def source_type_key : LookupBuf := ["source_type"]

/-- Modelled from the spec: the process-wide `log_schema()` key for the event
timestamp; the external default schema names it `timestamp`. -/
def timestamp_key : LookupBuf := ["timestamp"]

/-- Modelled from the spec: the key under which `Event::from(&str)` stores
the raw message. -/
def message_key : LookupBuf := ["message"]

/-- Static lookup `HOSTNAME_LOOKUP`. -/
def hostnameLookup : LookupBuf := ["hostname"]

/-- Static lookup `SEVERITY_LOOKUP`. -/
def severityLookup : LookupBuf := ["severity"]

/-- Static lookup `FACILITY_LOOKUP`. -/
def facilityLookup : LookupBuf := ["facility"]

/-- Static lookup `VERSION_LOOKUP`. -/
def versionLookup : LookupBuf := ["version"]

/-- Static lookup `APPNAME_LOOKUP`. -/
def appnameLookup : LookupBuf := ["appname"]

/-- Static lookup `MSGID_LOOKUP`. -/
def msgidLookup : LookupBuf := ["msgid"]

/-- Static lookup `PROCID_LOOKUP`. -/
def procidLookup : LookupBuf := ["procid"]

/-- Static lookup `SOURCE_IP_LOOKUP`. -/
def sourceIpLookup : LookupBuf := ["source_ip"]

/-- The `procid` of a parsed syslog message (`syslog_loose::ProcId`). -/
inductive ProcId where
  | pid (n : Int)
  | name (s : String)
deriving DecidableEq, Repr

/-- The outcome of `syslog_loose::parse_message_with_year`, which is external
to the embedded source; `event_from_str` is verified for every possible
parse, so the parsed message is an input of the embedding. The version field
is `some v` exactly when the protocol is RFC 5424 with version `v`. -/
structure ParsedMessage where
  msg : String
  hostname : Option String
  timestamp : Option Nat
  severity : Option String
  facility : Option String
  version : Option Int
  appname : Option String
  msgid : Option String
  procid : Option ProcId
  structured_data : List (String × List (String × String))
deriving DecidableEq, Repr

/-- Embedding of `LookupBuf::from_str(id)` (with the `LookupBuf::from(id)`
fallback): the dotted identifier becomes a path of segments; the fallback
case is a single-segment path, covered by the `[] => [id]` arm (so the
result is never empty either way). -/
def lookupFromStr (id : String) : LookupBuf :=
  match id.splitOn "." with
  | [] => [id]
  | l => l

/-- Embedding of `insert_fields_from_syslog`. -/
def insert_fields_from_syslog (event : LogEvent) (parsed : ParsedMessage) :
    LogEvent :=
  let log := event.insertOpt hostnameLookup
    (parsed.hostname.map (fun h => Value.str h))
  let log := log.insertOpt severityLookup
    (parsed.severity.map (fun s => Value.str s))
  let log := log.insertOpt facilityLookup
    (parsed.facility.map (fun f => Value.str f))
  let log := log.insertOpt versionLookup
    (parsed.version.map (fun v => Value.int v))
  let log := log.insertOpt appnameLookup
    (parsed.appname.map (fun a => Value.str a))
  let log := log.insertOpt msgidLookup
    (parsed.msgid.map (fun m => Value.str m))
  let log := log.insertOpt procidLookup
    (parsed.procid.map (fun p =>
      match p with
      | ProcId.pid n => Value.int n
      | ProcId.name s => Value.str s))
  parsed.structured_data.foldl
    (fun log elem =>
      elem.2.foldl
        (fun log nv =>
          log.insert (lookupFromStr elem.1 ++ [nv.1]) (Value.str nv.2))
        log)
    log

/-- Embedding of `event_from_str`. Parsing (`syslog_loose`), trimming and the
current instant are external, so the parsed message and `now` are inputs;
`Event::from(&parsed.msg[..])` is modelled as a log event holding the
message. The source always wraps its result in `Some`. -/
def event_from_str (host_key : LookupBuf) (default_host : Option String)
    (parsed : ParsedMessage) (now : Nat) : Option LogEvent :=
  let event : LogEvent := [(message_key, Value.str parsed.msg)]
  let event := event.insert source_type_key (Value.str "syslog")
  let event := match default_host with
    | some dh => event.insert sourceIpLookup (Value.str dh)
    | none => event
  let parsed_hostname := parsed.hostname
  let event := match parsed_hostname, default_host with
    | some h, _ => event.insert host_key (Value.str h)
    | none, some h => event.insert host_key (Value.str h)
    | none, none => event
  let timestamp := match parsed.timestamp with
    | some ts => ts
    | none => now
  let event := event.insert timestamp_key (Value.ts timestamp)
  let event := insert_fields_from_syslog event parsed
  some event

end Syslog

namespace Topology

/-- Component identity. The source type is `(scope, id)`; only its identity
and total order matter here, so it is modelled as a string. -/
abbrev ComponentKey := String

/-- Association-list lookup, the model of `HashMap::get`. -/
def alookup {κ α : Type} [DecidableEq κ] (l : List (κ × α)) (k : κ) :
    Option α :=
  (l.find? (fun p => p.1 = k)).map (fun p => p.2)

/-- Remove the entry with key `k` (first occurrence), the model of
`HashMap::remove`. -/
def removeAssoc {κ α : Type} [DecidableEq κ] :
    List (κ × α) → κ → List (κ × α)
  | [], _ => []
  | p :: rest, k => if p.1 = k then rest else p :: removeAssoc rest k

/-- `OutputId`: a component plus an optional port (`none` = primary). -/
structure OutputId where
  component : ComponentKey
  port : Option String
deriving DecidableEq, Repr

/-- The primary `OutputId` of a component (`OutputId::from(key)`). -/
def OutputId.primary (key : ComponentKey) : OutputId := ⟨key, none⟩

/-- A named-port `OutputId` (`OutputId::from((key, name))`). -/
def OutputId.named (key : ComponentKey) (port : String) : OutputId :=
  ⟨key, some port⟩

/-- `DataType`, the per-edge ingress filter. -/
inductive DataType where
  | any
  | log
  | metric
deriving DecidableEq, Repr

/-- Events, reduced to their tag and an identity: the builder only ever
discriminates log vs metric and moves events around. -/
inductive Event where
  | log (n : Nat)
  | metric (n : Nat)
deriving DecidableEq, Repr

/-- Embedding of `filter_event_type`. -/
def filter_event_type (event : Event) (data_type : DataType) : Bool :=
  match data_type with
  | DataType.any => true
  | DataType.log => match event with
    | Event.log _ => true
    | _ => false
  | DataType.metric => match event with
    | Event.metric _ => true
    | _ => false

/-- `enrichment::Case` for table indexes. -/
inductive Case where
  | sensitive
  | insensitive
deriving DecidableEq, Repr

/-- An index registered against an enrichment table: a case plus the indexed
fields. -/
abbrev IndexSpec := Case × List String

/-- An enrichment table: its registered indexes, plus the set of index
specifications its (external) implementation rejects — `add_index` on the
built table is fallible and the embedding makes the failure set explicit. -/
structure Table where
  indexes : List IndexSpec
  badIndexes : List IndexSpec
deriving DecidableEq, Repr

/-- Embedding of `Table::add_index` on a built table: fails exactly on the
table's rejected index specifications. -/
def Table.add_index (t : Table) (ix : IndexSpec) : Except String Table :=
  if ix ∈ t.badIndexes then .error "add_index error"
  else .ok { t with indexes := t.indexes ++ [ix] }

/-- The enrichment table registry. `tables` is the current catalogue,
`changedTables` the names whose backing definition changed since the last
load, `readonly` the loading/readonly phase flag. -/
structure TableRegistry where
  tables : List (String × Table)
  changedTables : List String
  readonly : Bool
deriving DecidableEq, Repr

/-- Modelled from the spec: `TableRegistry::needs_reload` (the `enrichment`
crate is not part of the embedded sources) — true if the named table is new
or its backing definition changed. -/
def TableRegistry.needs_reload (reg : TableRegistry) (name : String) : Bool :=
  (alookup reg.tables name).isNone || reg.changedTables.contains name

/-- Modelled from the spec: `TableRegistry::index_fields` — the indexes
registered against an existing table, so they can be re-applied after
reload. -/
def TableRegistry.index_fields (reg : TableRegistry) (name : String) :
    List IndexSpec :=
  match alookup reg.tables name with
  | some t => t.indexes
  | none => []

/-- Modelled from the spec: `TableRegistry::load` — atomically swaps in the
new tables while retaining tables not present in the map. -/
def TableRegistry.load (reg : TableRegistry) (m : List (String × Table)) :
    TableRegistry :=
  { reg with
    tables := m ++ reg.tables.filter (fun p => (alookup m p.1).isNone) }

/-- Modelled from the spec: `TableRegistry::finish_load` — transitions the
registry to readonly. -/
def TableRegistry.finish_load (reg : TableRegistry) : TableRegistry :=
  { reg with readonly := true }

/-- A configured enrichment table (`enrichment_tables[key]` in the config):
its fallible constructor `table.inner.build`. -/
structure TableOuter where
  build : Except String Table
deriving DecidableEq, Repr

/-- The state of the built source future each time the outer server task
polls it: `ready` is the value the poll would return (`none` = pending), and
`polls` counts how many times the future has actually been polled. -/
structure SourceFut where
  ready : Option (Except Unit Unit)
  polls : Nat
deriving DecidableEq, Repr

/-- Poll the source future once. -/
def SourceFut.poll (f : SourceFut) : Option (Except Unit Unit) × SourceFut :=
  (f.ready, { f with polls := f.polls + 1 })

/-- A configured source (`sources[key]`): its fallible constructor
`source.inner.build(context)`, which on success yields the server future. -/
structure SourceOuter where
  build : Except String SourceFut
deriving DecidableEq, Repr

/-- A sync infallible transform: per input event, the events appended to
`output`. -/
abbrev FunctionTransform := Event → List Event

/-- A sync fallible transform: per input event, the events appended to
`output` and to `errors`. -/
abbrev FallibleFunctionTransform := Event → List Event × List Event

/-- A stream (task) transform. -/
abbrev TaskTransform := List Event → List Event

/-- The three dispatch shapes of a built `Transform`. -/
inductive Transform where
  | function (t : FunctionTransform)
  | fallibleFunction (t : FallibleFunctionTransform)
  | task (t : TaskTransform)

/-- A configured transform (`transforms[key]`): inputs, input type, named
outputs and the fallible constructor `transform.inner.build(&context)`. -/
structure TransformOuter where
  inputs : List OutputId
  input_type : DataType
  named_outputs : List String
  build : Except String Transform

/-- Modelled from the spec: the `named_outputs()` of a fallible sync
transform (the trait implementations live outside the embedded sources) — a
fallible sync transform always has exactly the named output `"dropped"` in
addition to the primary. -/
def fallibleNamedOutputs : List String := ["dropped"]

/-- A buffer triple `(tx, rx, acker)`; the three handles are abstract
identities so that reuse-verbatim is expressible. -/
structure BuiltBuffer where
  tx : Nat
  rx : Nat
  acker : Nat
deriving DecidableEq, Repr

/-- The sink healthcheck future produced by a successful sink build: how
long it runs before resolving (in milliseconds) and its result. -/
structure HealthcheckFut where
  duration_ms : Nat
  result : Except String Unit
deriving DecidableEq, Repr

/-- A configured sink (`sinks[key]`): inputs, input type, the per-sink
healthcheck flag, the fallible buffer constructor `sink.buffer.build` and
the fallible sink constructor `sink.inner.build(cx)` (whose success value is
the pair `(sink, healthcheck)`; only the healthcheck future is observable
at the builder level). -/
structure SinkOuter where
  inputs : List OutputId
  input_type : DataType
  healthcheck_enabled : Bool
  buffer_build : Except String BuiltBuffer
  build : Except String HealthcheckFut
deriving DecidableEq, Repr

/-- The diff: the sets of keys that are new per category. -/
structure Diff where
  sources_new : List ComponentKey
  transforms_new : List ComponentKey
  sinks_new : List ComponentKey
  enrichment_tables_new : List String
deriving DecidableEq, Repr

/-- The configuration snapshot. Modelled from the spec where the concrete
type is external: iteration over the component maps is deterministic and
ordered by key, so each map is an association list in that order. -/
structure Config where
  sources : List (ComponentKey × SourceOuter)
  transforms : List (ComponentKey × TransformOuter)
  sinks : List (ComponentKey × SinkOuter)
  enrichment_tables : List (String × TableOuter)
  healthchecks_enabled : Bool

/-- Error string for a failed enrichment table build. -/
def tableErrMsg (name e : String) : String :=
  "Enrichment Table \"" ++ name ++ "\": " ++ e

/-- Error string for a failed source build. -/
def sourceErrMsg (key e : String) : String :=
  "Source \"" ++ key ++ "\": " ++ e

/-- Error string for a failed transform build. -/
def transformErrMsg (key e : String) : String :=
  "Transform \"" ++ key ++ "\": " ++ e

/-- Error string for a failed sink or sink-buffer build. -/
def sinkErrMsg (key e : String) : String :=
  "Sink \"" ++ key ++ "\": " ++ e

/-- Re-apply a snapshot of indexes to a freshly built table, stopping at the
first `add_index` failure (`continue 'tables` in the source). -/
def applyIndexes (t : Table) : List IndexSpec → Option Table
  | [] => some t
  | ix :: rest =>
    match t.add_index ix with
    | .ok t2 => applyIndexes t2 rest
    | .error _ => none

/-- Outcome of one iteration of the `'tables` loop of
`load_enrichment_tables` for one configured table. -/
inductive TableOutcome where
  | skip
  | failed (e : String)
  | abandoned
  | loaded (t : Table)
deriving DecidableEq, Repr

/-- One iteration of the `'tables` loop in `load_enrichment_tables`: skip
when no reload is needed; report a build failure; re-apply the snapshotted
indexes when the table is not new in the diff, abandoning the reload of this
table (without an error-list entry — the source only logs) when any
`add_index` fails. -/
def process_table (reg : TableRegistry) (diff : Diff) (name : String)
    (tcfg : TableOuter) : TableOutcome :=
  if reg.needs_reload name then
    let indexes :=
      if ¬ diff.enrichment_tables_new.contains name then
        some (reg.index_fields name)
      else none
    match tcfg.build with
    | .error e => .failed (tableErrMsg name e)
    | .ok table =>
      match indexes with
      | none => .loaded table
      | some idxs =>
        match applyIndexes table idxs with
        | some table2 => .loaded table2
        | none => .abandoned
  else .skip

/-- The `'tables` loop of `load_enrichment_tables`: the map of reloaded
tables handed to `TableRegistry::load`, and the accumulated error strings,
in iteration order. -/
def load_tables_loop (reg : TableRegistry) (diff : Diff) :
    List (String × TableOuter) → List (String × Table) × List String
  | [] => ([], [])
  | (name, tcfg) :: rest =>
    match process_table reg diff name tcfg with
    | .skip => load_tables_loop reg diff rest
    | .failed e =>
      let (m, es) := load_tables_loop reg diff rest
      (m, e :: es)
    | .abandoned => load_tables_loop reg diff rest
    | .loaded t =>
      let (m, es) := load_tables_loop reg diff rest
      ((name, t) :: m, es)

/-- Embedding of `load_enrichment_tables`: build the reload map over all
configured tables, swap it into the registry, and return the registry with
the error list. -/
def load_enrichment_tables (reg : TableRegistry) (config : Config)
    (diff : Diff) : TableRegistry × List String :=
  let (enrichment_tables, errors) :=
    load_tables_loop reg diff config.enrichment_tables
  (reg.load enrichment_tables, errors)

/-- Outcome of a completed task (`TaskOutput`). -/
inductive TaskOutput where
  | source
  | transform
  | sink (rx : Nat) (acker : Nat)
  | healthcheck
deriving DecidableEq, Repr

/-- The asynchronous units of work the builder creates, keyed by component:
the data each holds is what its future closes over and the claims observe.
`sourceServer` holds the source future it races against the force-shutdown
tripwire; `sinkTask` holds the buffer receiver and acker it yields on
completion; `healthcheck` holds the enabled flag and the healthcheck
future. -/
inductive Task where
  | sourcePump
  | sourceServer (server : SourceFut)
  | transformTask
  | sinkTask (rx : Nat) (acker : Nat)
  | healthcheck (enabled : Bool) (hc : HealthcheckFut)
deriving DecidableEq, Repr

/-- Embedding of the per-source server task (the `async` block in
`build_pieces` around the `select!` with `biased`): one poll of the outer
future, given whether the force-shutdown tripwire has resolved. The biased
select polls the tripwire first; only while it is unresolved is the source
future polled, and its result mapped (`Ok(()) ↦ Ok(TaskOutput::Source)`,
`Err(()) ↦ Err(())`). -/
def server_task_poll (tripwireResolved : Bool) (server : SourceFut) :
    Option (Except Unit TaskOutput) × SourceFut :=
  if tripwireResolved then (some (.ok TaskOutput.source), server)
  else
    match server.poll with
    | (none, f) => (none, f)
    | (some (.ok _), f) => (some (.ok TaskOutput.source), f)
    | (some (.error _), f) => (some (.error ()), f)

/-- Embedding of the per-sink healthcheck task: when enabled (per-sink and
globally), run the healthcheck future under a 10-second timeout — `Ok` when
it passes in time, `Err` when it fails in time or when the timeout elapses
first; when disabled, return `Ok` immediately. -/
def healthcheck_task (enabled : Bool) (hc : HealthcheckFut) :
    Except Unit TaskOutput :=
  if enabled then
    if hc.duration_ms ≤ 10000 then
      match hc.result with
      | .ok _ => .ok TaskOutput.healthcheck
      | .error _ => .error ()
    else .error ()
  else .ok TaskOutput.healthcheck

/-- The buffered per-port output stage of a sync transform. The fanout
endpoints are identities external to the builder logic, so only the buffers
are carried; `flush` drains each buffer to its fanout. -/
structure TransformOutputs where
  primary_buffer : List Event
  named_buffers : List (String × List Event)
deriving DecidableEq, Repr

/-- Embedding of `TransformOutputs::new`: one buffer and one control-channel
entry per named output, plus the primary (inserted last). The control
channels themselves are opaque (`Unit`). -/
def TransformOutputs.new (named_outputs_in : List String) :
    TransformOutputs × List (Option String × Unit) :=
  ({ primary_buffer := [],
     named_buffers := named_outputs_in.map (fun name => (name, [])) },
   named_outputs_in.map (fun name => (some name, ()))
     ++ [(none, ())])

/-- Embedding of `TransformOutputs::append`: move `slice` onto the primary
buffer. -/
def TransformOutputs.append (outs : TransformOutputs) (slice : List Event) :
    TransformOutputs :=
  { outs with primary_buffer := outs.primary_buffer ++ slice }

/-- Embedding of `TransformOutputs::append_named`: move `slice` onto the
named buffer. The source panics (`expect "unknown output"`) when the name
was not declared; the embedding leaves the outputs unchanged in that
unreachable case. -/
def TransformOutputs.append_named (outs : TransformOutputs) (name : String)
    (slice : List Event) : TransformOutputs :=
  { outs with
    named_buffers := outs.named_buffers.map
      (fun p => if p.1 = name then (p.1, p.2 ++ slice) else p) }

/-- Embedding of `<Box<dyn FallibleFunctionTransform> as SyncTransform>::run`:
per input event, append the transform's output buffer to the primary and its
error buffer to the `"dropped"` named output. -/
def runFallibleFunction (t : FallibleFunctionTransform) (events : List Event)
    (outputs : TransformOutputs) : TransformOutputs :=
  events.foldl
    (fun outputs v =>
      let (buf, err_buf) := t v
      (outputs.append buf).append_named "dropped" err_buf)
    outputs

/-- Embedding of `<Box<dyn FunctionTransform> as SyncTransform>::run`: per
input event, append the transform's output buffer to the primary. -/
def runFunction (t : FunctionTransform) (events : List Event)
    (outputs : TransformOutputs) : TransformOutputs :=
  events.foldl (fun outputs v => outputs.append (t v)) outputs

/-- The arguments `build_transform` passes on (key, inputs, input type and
declared named outputs of the node). -/
structure TransformNode where
  key : ComponentKey
  inputs : List OutputId
  input_type : DataType
  named_outputs : List String

/-- Embedding of `build_sync_transform`, restricted to its observable
construction effects: the task and the per-`OutputId` control channels
derived from `TransformOutputs::new` (named ports first, then the
primary). -/
def build_sync_transform (key : ComponentKey) (named_outputs : List String) :
    Task × List (OutputId × Unit) :=
  let controls := (TransformOutputs.new named_outputs).2
  (Task.transformTask,
   controls.map (fun p =>
     match p.1 with
     | none => (OutputId.primary key, p.2)
     | some name => (OutputId.named key name, p.2)))

/-- Embedding of `build_task_transform`: a single primary output. -/
def build_task_transform (key : ComponentKey) :
    Task × List (OutputId × Unit) :=
  (Task.transformTask, [(OutputId.primary key, ())])

/-- Embedding of `build_transform`: dispatch on the transform shape —
`Function` gets a sync transform with no named outputs, `FallibleFunction`
a sync transform with the node's named outputs, `Task` a task transform. -/
def build_transform (transform : Transform) (node : TransformNode) :
    Task × List (OutputId × Unit) :=
  match transform with
  | Transform.function _ => build_sync_transform node.key []
  | Transform.fallibleFunction _ =>
    build_sync_transform node.key node.named_outputs
  | Transform.task _ => build_task_transform node.key

/-- The producer handle stored in `inputs`: a transform gets a fresh
memory buffer (capacity 100, `Block`); a sink gets the sender of its
(possibly reused) buffer triple. -/
inductive InputTx where
  | transformBuffer (key : ComponentKey)
  | sinkBuffer (tx : Nat)
deriving DecidableEq, Repr

/-- The mutable state of `build_pieces` while it walks sources, transforms
and sinks: the accumulated `Pieces` maps, the error list, the remaining
`previous_buffers` map (entries are removed as they are claimed), and two
trace lists recording for which sinks a previous buffer was claimed —
`reused_buffers` — and for which a fresh buffer was constructed —
`fresh_buffers`. -/
structure BuildState where
  inputs : List (ComponentKey × (InputTx × List OutputId))
  outputs : List (OutputId × Unit)
  tasks : List (ComponentKey × Task)
  source_tasks : List (ComponentKey × Task)
  healthchecks : List (ComponentKey × Task)
  detach_triggers : List ComponentKey
  errors : List String
  buffers : List (ComponentKey × BuiltBuffer)
  reused_buffers : List ComponentKey
  fresh_buffers : List ComponentKey

/-- One iteration of the source loop of `build_pieces`: on build failure
push the error and continue; on success register the primary output, the
pump task and the server task. -/
def build_source_step (st : BuildState) (key : ComponentKey)
    (source : SourceOuter) : BuildState :=
  match source.build with
  | .error e => { st with errors := st.errors ++ [sourceErrMsg key e] }
  | .ok server =>
    { st with
      outputs := st.outputs ++ [(OutputId.primary key, ())],
      tasks := st.tasks ++ [(key, Task.sourcePump)],
      source_tasks := st.source_tasks ++ [(key, Task.sourceServer server)] }

/-- One iteration of the transform loop of `build_pieces`: on build failure
push the error and continue; on success allocate the input buffer, record
the inputs entry, and add the task and outputs from `build_transform`. -/
def build_transform_step (st : BuildState) (key : ComponentKey)
    (transform : TransformOuter) : BuildState :=
  match transform.build with
  | .error e => { st with errors := st.errors ++ [transformErrMsg key e] }
  | .ok tr =>
    let node : TransformNode :=
      { key := key, inputs := transform.inputs,
        input_type := transform.input_type,
        named_outputs := transform.named_outputs }
    let tt := build_transform tr node
    { st with
      inputs := st.inputs
        ++ [(key, (InputTx.transformBuffer key, transform.inputs))],
      outputs := st.outputs ++ tt.2,
      tasks := st.tasks ++ [(key, tt.1)] }

/-- The tail of one sink iteration, after the buffer triple has been
obtained: on sink build failure push the error and continue; on success
record the inputs entry, the healthcheck task, the sink task and the detach
trigger. -/
def build_sink_finish (st : BuildState) (key : ComponentKey)
    (sink : SinkOuter) (enable_healthcheck : Bool) (triple : BuiltBuffer) :
    BuildState :=
  match sink.build with
  | .error e => { st with errors := st.errors ++ [sinkErrMsg key e] }
  | .ok hc =>
    { st with
      inputs := st.inputs
        ++ [(key, (InputTx.sinkBuffer triple.tx, sink.inputs))],
      healthchecks := st.healthchecks
        ++ [(key, Task.healthcheck enable_healthcheck hc)],
      tasks := st.tasks ++ [(key, Task.sinkTask triple.rx triple.acker)],
      detach_triggers := st.detach_triggers ++ [key] }

/-- One iteration of the sink loop of `build_pieces`: claim the previous
buffer triple for this key if one exists (`buffers.remove(key)`), else
construct a fresh one from the sink's buffer configuration (pushing the
error and continuing when that fails), then finish the sink build. -/
def build_sink_step (healthchecks_enabled : Bool) (st : BuildState)
    (key : ComponentKey) (sink : SinkOuter) : BuildState :=
  let enable_healthcheck := sink.healthcheck_enabled && healthchecks_enabled
  match alookup st.buffers key with
  | some triple =>
    let st2 := { st with
      buffers := removeAssoc st.buffers key,
      reused_buffers := st.reused_buffers ++ [key] }
    build_sink_finish st2 key sink enable_healthcheck triple
  | none =>
    match sink.buffer_build with
    | .error e => { st with errors := st.errors ++ [sinkErrMsg key e] }
    | .ok triple =>
      let st2 := { st with fresh_buffers := st.fresh_buffers ++ [key] }
      build_sink_finish st2 key sink enable_healthcheck triple

/-- The full loop phase of `build_pieces`: start from the enrichment-table
errors, then fold the source, transform and sink loops, each over the
configured components that are new in the diff, in configuration order. -/
def build_pieces_state (reg : TableRegistry) (config : Config) (diff : Diff)
    (buffers : List (ComponentKey × BuiltBuffer)) : BuildState :=
  let st0 : BuildState :=
    { inputs := [], outputs := [], tasks := [], source_tasks := [],
      healthchecks := [], detach_triggers := [],
      errors := (load_enrichment_tables reg config diff).2,
      buffers := buffers, reused_buffers := [], fresh_buffers := [] }
  let st1 := (config.sources.filter
      (fun p => diff.sources_new.contains p.1)).foldl
    (fun st p => build_source_step st p.1 p.2) st0
  let st2 := (config.transforms.filter
      (fun p => diff.transforms_new.contains p.1)).foldl
    (fun st p => build_transform_step st p.1 p.2) st1
  (config.sinks.filter (fun p => diff.sinks_new.contains p.1)).foldl
    (fun st p => build_sink_step config.healthchecks_enabled st p.1 p.2) st2

/-- Re-keying of the outputs map from `OutputId` to
`ComponentKey → (port → control)` (the loop over `outputs` before `Pieces`
is assembled). -/
def finalize_outputs (outs : List (OutputId × Unit)) :
    List (ComponentKey × List (Option String × Unit)) :=
  outs.foldl
    (fun m oc =>
      if (alookup m oc.1.component).isSome then
        m.map (fun p =>
          if p.1 = oc.1.component then (p.1, p.2 ++ [(oc.1.port, oc.2)])
          else p)
      else m ++ [(oc.1.component, [(oc.1.port, oc.2)])])
    []

/-- The builder's output bundle. -/
structure Pieces where
  inputs : List (ComponentKey × (InputTx × List OutputId))
  outputs : List (ComponentKey × List (Option String × Unit))
  tasks : List (ComponentKey × Task)
  source_tasks : List (ComponentKey × Task)
  healthchecks : List (ComponentKey × Task)
  detach_triggers : List ComponentKey
  enrichment_tables : TableRegistry

/-- Embedding of `build_pieces`: load the enrichment tables, run the three
component loops, finish the registry load, and return `Ok(Pieces)` exactly
when no error was accumulated, `Err(errors)` otherwise. -/
def build_pieces (reg : TableRegistry) (config : Config) (diff : Diff)
    (buffers : List (ComponentKey × BuiltBuffer)) :
    Except (List String) Pieces :=
  let st := build_pieces_state reg config diff buffers
  let registry := ((load_enrichment_tables reg config diff).1).finish_load
  if st.errors = [] then
    .ok { inputs := st.inputs, outputs := finalize_outputs st.outputs,
          tasks := st.tasks, source_tasks := st.source_tasks,
          healthchecks := st.healthchecks,
          detach_triggers := st.detach_triggers,
          enrichment_tables := registry }
  else .error st.errors

/-! Per-component observation functions. Each describes the contribution of
one component, looked at in isolation, to one of the builder's accumulated
lists; the characterization lemmas below prove that the sequential loops of
`build_pieces` are equivalent to mapping these over the (diff-filtered)
configuration. -/

/-- Error string of one enrichment-table iteration, if any. -/
def table_error (reg : TableRegistry) (diff : Diff) (name : String)
    (tcfg : TableOuter) : Option String :=
  match process_table reg diff name tcfg with
  | .failed e => some e
  | _ => none

/-- Reload-map entry of one enrichment-table iteration, if any. -/
def table_loaded (reg : TableRegistry) (diff : Diff) (name : String)
    (tcfg : TableOuter) : Option (String × Table) :=
  match process_table reg diff name tcfg with
  | .loaded t => some (name, t)
  | _ => none

/-- Error string of one source iteration, if any. -/
def source_error (key : ComponentKey) (s : SourceOuter) : Option String :=
  match s.build with
  | .error e => some (sourceErrMsg key e)
  | .ok _ => none

/-- Outputs entry of one source iteration, if any. -/
def source_output (key : ComponentKey) (s : SourceOuter) :
    Option (OutputId × Unit) :=
  match s.build with
  | .ok _ => some (OutputId.primary key, ())
  | .error _ => none

/-- Pump-task entry of one source iteration, if any. -/
def source_task_entry (key : ComponentKey) (s : SourceOuter) :
    Option (ComponentKey × Task) :=
  match s.build with
  | .ok _ => some (key, Task.sourcePump)
  | .error _ => none

/-- Server-task entry of one source iteration, if any. -/
def source_server_entry (key : ComponentKey) (s : SourceOuter) :
    Option (ComponentKey × Task) :=
  match s.build with
  | .ok server => some (key, Task.sourceServer server)
  | .error _ => none

/-- The `TransformNode` of a configured transform. -/
def transform_node (key : ComponentKey) (t : TransformOuter) :
    TransformNode :=
  { key := key, inputs := t.inputs, input_type := t.input_type,
    named_outputs := t.named_outputs }

/-- Error string of one transform iteration, if any. -/
def transform_error (key : ComponentKey) (t : TransformOuter) :
    Option String :=
  match t.build with
  | .error e => some (transformErrMsg key e)
  | .ok _ => none

/-- Inputs entry of one transform iteration, if any. -/
def transform_input_entry (key : ComponentKey) (t : TransformOuter) :
    Option (ComponentKey × (InputTx × List OutputId)) :=
  match t.build with
  | .ok _ => some (key, (InputTx.transformBuffer key, t.inputs))
  | .error _ => none

/-- Outputs entries of one transform iteration. -/
def transform_outputs_entries (key : ComponentKey) (t : TransformOuter) :
    List (OutputId × Unit) :=
  match t.build with
  | .ok tr => (build_transform tr (transform_node key t)).2
  | .error _ => []

/-- Task entry of one transform iteration, if any. -/
def transform_task_entry (key : ComponentKey) (t : TransformOuter) :
    Option (ComponentKey × Task) :=
  match t.build with
  | .ok tr => some (key, (build_transform tr (transform_node key t)).1)
  | .error _ => none

/-- The buffer triple one sink iteration ends up holding, if any: the entry
of the previous-buffers map `B` when present, else the freshly constructed
one when its construction succeeds. -/
def sink_used_buffer (B : List (ComponentKey × BuiltBuffer))
    (key : ComponentKey) (s : SinkOuter) : Option BuiltBuffer :=
  match alookup B key with
  | some triple => some triple
  | none =>
    match s.buffer_build with
    | .ok triple => some triple
    | .error _ => none

/-- Error string of one sink iteration, if any: a buffer-construction error
when no previous buffer exists and the fresh build fails, else a sink-build
error. -/
def sink_error (B : List (ComponentKey × BuiltBuffer)) (key : ComponentKey)
    (s : SinkOuter) : Option String :=
  match alookup B key with
  | some _ =>
    match s.build with
    | .error e => some (sinkErrMsg key e)
    | .ok _ => none
  | none =>
    match s.buffer_build with
    | .error e => some (sinkErrMsg key e)
    | .ok _ =>
      match s.build with
      | .error e => some (sinkErrMsg key e)
      | .ok _ => none

/-- Inputs entry of one sink iteration, if any. -/
def sink_input_entry (B : List (ComponentKey × BuiltBuffer))
    (key : ComponentKey) (s : SinkOuter) :
    Option (ComponentKey × (InputTx × List OutputId)) :=
  match sink_used_buffer B key s, s.build with
  | some triple, .ok _ => some (key, (InputTx.sinkBuffer triple.tx, s.inputs))
  | _, _ => none

/-- Task entry of one sink iteration, if any. -/
def sink_task_entry (B : List (ComponentKey × BuiltBuffer))
    (key : ComponentKey) (s : SinkOuter) : Option (ComponentKey × Task) :=
  match sink_used_buffer B key s, s.build with
  | some triple, .ok _ => some (key, Task.sinkTask triple.rx triple.acker)
  | _, _ => none

/-- Healthcheck entry of one sink iteration, if any. -/
def sink_healthcheck_entry (g : Bool) (B : List (ComponentKey × BuiltBuffer))
    (key : ComponentKey) (s : SinkOuter) : Option (ComponentKey × Task) :=
  match sink_used_buffer B key s, s.build with
  | some _, .ok hc => some (key, Task.healthcheck (s.healthcheck_enabled && g) hc)
  | _, _ => none

/-- Detach-trigger entry of one sink iteration, if any. -/
def sink_detach_entry (B : List (ComponentKey × BuiltBuffer))
    (key : ComponentKey) (s : SinkOuter) : Option ComponentKey :=
  match sink_used_buffer B key s, s.build with
  | some _, .ok _ => some key
  | _, _ => none

/-- Reused-buffer trace entry of one sink iteration, if any. -/
def sink_reused_entry (B : List (ComponentKey × BuiltBuffer))
    (key : ComponentKey) (_s : SinkOuter) : Option ComponentKey :=
  match alookup B key with
  | some _ => some key
  | none => none

/-- Fresh-buffer trace entry of one sink iteration, if any. -/
def sink_fresh_entry (B : List (ComponentKey × BuiltBuffer))
    (key : ComponentKey) (s : SinkOuter) : Option ComponentKey :=
  match alookup B key with
  | some _ => none
  | none =>
    match s.buffer_build with
    | .ok _ => some key
    | .error _ => none

/-- The sources of `config` that are new in `diff`, in configuration
order. -/
def new_sources (config : Config) (diff : Diff) :
    List (ComponentKey × SourceOuter) :=
  config.sources.filter (fun p => diff.sources_new.contains p.1)

/-- The transforms of `config` that are new in `diff`, in configuration
order. -/
def new_transforms (config : Config) (diff : Diff) :
    List (ComponentKey × TransformOuter) :=
  config.transforms.filter (fun p => diff.transforms_new.contains p.1)

/-- The sinks of `config` that are new in `diff`, in configuration order. -/
def new_sinks (config : Config) (diff : Diff) :
    List (ComponentKey × SinkOuter) :=
  config.sinks.filter (fun p => diff.sinks_new.contains p.1)

/-- The full builder error list spelled out per component: enrichment-table
errors, then source, transform and sink build errors, each in configuration
order. -/
def expected_errors (reg : TableRegistry) (config : Config) (diff : Diff)
    (B : List (ComponentKey × BuiltBuffer)) : List String :=
  config.enrichment_tables.filterMap (fun p => table_error reg diff p.1 p.2)
    ++ (new_sources config diff).filterMap (fun p => source_error p.1 p.2)
    ++ (new_transforms config diff).filterMap
        (fun p => transform_error p.1 p.2)
    ++ (new_sinks config diff).filterMap (fun p => sink_error B p.1 p.2)

/-! Concrete fixtures, used to evaluate the theorems below on closed
inputs. -/

/-- A concrete sink configuration: no inputs, any input type, healthcheck
enabled, buffer construction yielding `(1, 2, 3)`, sink build succeeding
with a 5 ms healthcheck that passes. -/
def sinkW : SinkOuter :=
  { inputs := [], input_type := DataType.any, healthcheck_enabled := true,
    buffer_build := .ok ⟨1, 2, 3⟩, build := .ok ⟨5, .ok ()⟩ }

/-- A concrete configuration with the single sink `k`. -/
def configW : Config := ⟨[], [], [("k", sinkW)], [], true⟩

/-- A diff in which the sink `k` is new. -/
def diffW : Diff := ⟨[], [], ["k"], []⟩

/-- An empty enrichment registry in the loading phase. -/
def regW : TableRegistry := ⟨[], [], false⟩

/-- A previous-buffers map holding the triple `(7, 8, 9)` for the sink
`k`. -/
def buffersW : List (ComponentKey × BuiltBuffer) := [("k", ⟨7, 8, 9⟩)]

/-- A concrete source whose build succeeds with a pending server future. -/
def sourceW : SourceOuter := { build := .ok ⟨none, 0⟩ }

/-- A concrete configuration with the single source `s`. -/
def configW2 : Config := ⟨[("s", sourceW)], [], [], [], true⟩

/-- A diff in which the source `s` is new. -/
def diffW2 : Diff := ⟨["s"], [], [], []⟩

/-- A freshly built table whose implementation rejects the index
`(sensitive, [f])`. -/
def tableW : Table := ⟨[], [(Case.sensitive, ["f"])]⟩

/-- A registry holding a previous table `t` with the index
`(sensitive, [f])`, whose backing definition has changed. -/
def regW3 : TableRegistry :=
  ⟨[("t", ⟨[(Case.sensitive, ["f"])], []⟩)], ["t"], false⟩

/-- The configured table `t`, building to `tableW`. -/
def tcfgW : TableOuter := ⟨.ok tableW⟩

/-- A configuration holding only the enrichment table `t`. -/
def configW3 : Config := ⟨[], [], [], [("t", tcfgW)], true⟩

/-- A diff in which nothing is new (so `t` is an existing table whose
indexes must be re-applied). -/
def diffW3 : Diff := ⟨[], [], [], []⟩

/-- The `Pieces` bundle `build_pieces` produces from the fixtures above. -/
def piecesW : Pieces :=
  { inputs := [("k", (InputTx.sinkBuffer 7, []))],
    outputs := [],
    tasks := [("k", Task.sinkTask 8 9)],
    source_tasks := [],
    healthchecks := [("k", Task.healthcheck true ⟨5, .ok ()⟩)],
    detach_triggers := ["k"],
    enrichment_tables := ⟨[], [], true⟩ }

/-! Association-list lemmas. -/

lemma alookup_nil {κ α : Type} [DecidableEq κ] (k : κ) :
    alookup ([] : List (κ × α)) k = none := rfl

lemma alookup_cons {κ α : Type} [DecidableEq κ] (p : κ × α)
    (l : List (κ × α)) (k : κ) :
    alookup (p :: l) k = if p.1 = k then some p.2 else alookup l k := by
  by_cases h : p.1 = k <;> simp [alookup, List.find?_cons, h]

lemma alookup_append {κ α : Type} [DecidableEq κ] (l1 l2 : List (κ × α))
    (k : κ) :
    alookup (l1 ++ l2) k =
      match alookup l1 k with
      | some v => some v
      | none => alookup l2 k := by
  induction l1 with
  | nil => simp [alookup_nil]
  | cons p rest ih =>
    by_cases h : p.1 = k <;> simp [alookup_cons, h, ih]

lemma alookup_removeAssoc_ne {κ α : Type} [DecidableEq κ]
    (l : List (κ × α)) (k k2 : κ) (h : ¬ k = k2) :
    alookup (removeAssoc l k) k2 = alookup l k2 := by
  induction l with
  | nil => rfl
  | cons p rest ih =>
    by_cases hp : p.1 = k
    · simp [removeAssoc, hp, alookup_cons, h]
    · simp [removeAssoc, hp, alookup_cons, ih]

/-- Lookup in the filterMap of an entry-producing function that keeps each
item's own key: absent keys stay absent. -/
lemma alookup_filterMap_not_mem {κ α β : Type} [DecidableEq κ]
    (f : (κ × α) → Option (κ × β)) (hf : ∀ p q, f p = some q → q.1 = p.1)
    (l : List (κ × α)) (key : κ) (hkey : key ∉ l.map Prod.fst) :
    alookup (l.filterMap f) key = none := by
  induction l with
  | nil => rfl
  | cons p rest ih =>
    simp only [List.map_cons, List.mem_cons, not_or] at hkey
    cases hp : f p with
    | none => simpa [List.filterMap_cons, hp] using ih hkey.2
    | some q =>
      have hq : q.1 = p.1 := hf p q hp
      have : ¬ q.1 = key := by
        rw [hq]
        exact fun h => hkey.1 h.symm
      simpa [List.filterMap_cons, hp, alookup_cons, this] using ih hkey.2

/-- Lookup in the filterMap of an entry-producing function that keeps each
item's own key: with nodup keys, the result is the item's own entry. -/
lemma alookup_filterMap_mem {κ α β : Type} [DecidableEq κ]
    (f : (κ × α) → Option (κ × β)) (hf : ∀ p q, f p = some q → q.1 = p.1)
    (l : List (κ × α)) (key : κ) (a : α)
    (hnd : (l.map Prod.fst).Nodup) (hmem : (key, a) ∈ l) :
    alookup (l.filterMap f) key = (f (key, a)).map (fun q => q.2) := by
  induction l with
  | nil => simp at hmem
  | cons p rest ih =>
    simp only [List.map_cons, List.nodup_cons] at hnd
    rcases List.mem_cons.mp hmem with heq | hrest
    · subst heq
      have hnomem : key ∉ rest.map Prod.fst := by
        simpa using hnd.1
      cases hp : f (key, a) with
      | none =>
        simpa [List.filterMap_cons, hp] using
          alookup_filterMap_not_mem f hf rest key hnomem
      | some q =>
        have hq : q.1 = key := hf (key, a) q hp
        simp [List.filterMap_cons, hp, alookup_cons, hq]
    · have hne : ¬ p.1 = key := by
        intro h
        apply hnd.1
        rw [h]
        exact List.mem_map.mpr ⟨(key, a), hrest, rfl⟩
      cases hp : f p with
      | none => simpa [List.filterMap_cons, hp] using ih hnd.2 hrest
      | some q =>
        have hq : q.1 = p.1 := hf p q hp
        have : ¬ q.1 = key := by
          rw [hq]
          exact hne
        simpa [List.filterMap_cons, hp, alookup_cons, this] using
          ih hnd.2 hrest

lemma filterMap_cons_toList {α β : Type} (f : α → Option β) (p : α)
    (l : List α) :
    List.filterMap f (p :: l) = (f p).toList ++ List.filterMap f l := by
  cases h : f p <;> simp [List.filterMap_cons, h]

/-! Characterization of the builder loops: each sequential loop equals the
per-component observation functions mapped over the iterated list. -/

lemma load_tables_loop_spec (reg : TableRegistry) (diff : Diff)
    (l : List (String × TableOuter)) :
    load_tables_loop reg diff l =
      (l.filterMap (fun p => table_loaded reg diff p.1 p.2),
       l.filterMap (fun p => table_error reg diff p.1 p.2)) := by
  induction l with
  | nil => rfl
  | cons p rest ih =>
    obtain ⟨name, tcfg⟩ := p
    cases ho : process_table reg diff name tcfg <;>
      simp [load_tables_loop, ho, ih, table_loaded, table_error,
        List.filterMap_cons]

lemma build_source_step_spec (st : BuildState) (key : ComponentKey)
    (s : SourceOuter) :
    build_source_step st key s =
      { st with
        errors := st.errors ++ (source_error key s).toList,
        outputs := st.outputs ++ (source_output key s).toList,
        tasks := st.tasks ++ (source_task_entry key s).toList,
        source_tasks := st.source_tasks
          ++ (source_server_entry key s).toList } := by
  cases hb : s.build <;>
    simp [build_source_step, hb, source_error, source_output,
      source_task_entry, source_server_entry]

lemma sources_fold_spec (l : List (ComponentKey × SourceOuter)) :
    ∀ st : BuildState,
    l.foldl (fun st p => build_source_step st p.1 p.2) st =
      { st with
        errors := st.errors ++ l.filterMap (fun p => source_error p.1 p.2),
        outputs := st.outputs ++ l.filterMap (fun p => source_output p.1 p.2),
        tasks := st.tasks ++ l.filterMap (fun p => source_task_entry p.1 p.2),
        source_tasks := st.source_tasks
          ++ l.filterMap (fun p => source_server_entry p.1 p.2) } := by
  induction l with
  | nil => intro st; simp
  | cons p rest ih =>
    intro st
    rw [List.foldl_cons, build_source_step_spec, ih]
    simp [filterMap_cons_toList, List.append_assoc]

lemma build_transform_step_spec (st : BuildState) (key : ComponentKey)
    (t : TransformOuter) :
    build_transform_step st key t =
      { st with
        errors := st.errors ++ (transform_error key t).toList,
        inputs := st.inputs ++ (transform_input_entry key t).toList,
        outputs := st.outputs ++ transform_outputs_entries key t,
        tasks := st.tasks ++ (transform_task_entry key t).toList } := by
  cases hb : t.build <;>
    simp [build_transform_step, hb, transform_error, transform_input_entry,
      transform_outputs_entries, transform_task_entry, transform_node]

lemma transforms_fold_spec (l : List (ComponentKey × TransformOuter)) :
    ∀ st : BuildState,
    l.foldl (fun st p => build_transform_step st p.1 p.2) st =
      { st with
        errors := st.errors
          ++ l.filterMap (fun p => transform_error p.1 p.2),
        inputs := st.inputs
          ++ l.filterMap (fun p => transform_input_entry p.1 p.2),
        outputs := st.outputs
          ++ (l.map (fun p => transform_outputs_entries p.1 p.2)).flatten,
        tasks := st.tasks
          ++ l.filterMap (fun p => transform_task_entry p.1 p.2) } := by
  induction l with
  | nil => intro st; simp
  | cons p rest ih =>
    intro st
    rw [List.foldl_cons, build_transform_step_spec, ih]
    simp [filterMap_cons_toList, List.append_assoc]

lemma build_sink_step_spec (g : Bool) (B : List (ComponentKey × BuiltBuffer))
    (st : BuildState) (key : ComponentKey) (s : SinkOuter)
    (hB : alookup st.buffers key = alookup B key) :
    build_sink_step g st key s =
      { st with
        errors := st.errors ++ (sink_error B key s).toList,
        inputs := st.inputs ++ (sink_input_entry B key s).toList,
        tasks := st.tasks ++ (sink_task_entry B key s).toList,
        healthchecks := st.healthchecks
          ++ (sink_healthcheck_entry g B key s).toList,
        detach_triggers := st.detach_triggers
          ++ (sink_detach_entry B key s).toList,
        reused_buffers := st.reused_buffers
          ++ (sink_reused_entry B key s).toList,
        fresh_buffers := st.fresh_buffers
          ++ (sink_fresh_entry B key s).toList,
        buffers := if (alookup B key).isSome then removeAssoc st.buffers key
          else st.buffers } := by
  cases hBk : alookup B key with
  | some triple =>
    cases hsb : s.build <;>
      simp [build_sink_step, hB, hBk, build_sink_finish, hsb, sink_error,
        sink_input_entry, sink_task_entry, sink_healthcheck_entry,
        sink_detach_entry, sink_reused_entry, sink_fresh_entry,
        sink_used_buffer]
  | none =>
    cases hbb : s.buffer_build with
    | error e =>
      simp [build_sink_step, hB, hBk, hbb, sink_error, sink_input_entry,
        sink_task_entry, sink_healthcheck_entry, sink_detach_entry,
        sink_reused_entry, sink_fresh_entry, sink_used_buffer]
    | ok triple =>
      cases hsb : s.build <;>
        simp [build_sink_step, hB, hBk, hbb, build_sink_finish, hsb,
          sink_error, sink_input_entry, sink_task_entry,
          sink_healthcheck_entry, sink_detach_entry, sink_reused_entry,
          sink_fresh_entry, sink_used_buffer]

lemma sinks_fold_spec (g : Bool) (B : List (ComponentKey × BuiltBuffer))
    (l : List (ComponentKey × SinkOuter)) :
    ∀ st : BuildState, (l.map Prod.fst).Nodup →
    (∀ k, k ∈ l.map Prod.fst → alookup st.buffers k = alookup B k) →
    l.foldl (fun st p => build_sink_step g st p.1 p.2) st =
      { st with
        errors := st.errors ++ l.filterMap (fun p => sink_error B p.1 p.2),
        inputs := st.inputs
          ++ l.filterMap (fun p => sink_input_entry B p.1 p.2),
        tasks := st.tasks ++ l.filterMap (fun p => sink_task_entry B p.1 p.2),
        healthchecks := st.healthchecks
          ++ l.filterMap (fun p => sink_healthcheck_entry g B p.1 p.2),
        detach_triggers := st.detach_triggers
          ++ l.filterMap (fun p => sink_detach_entry B p.1 p.2),
        reused_buffers := st.reused_buffers
          ++ l.filterMap (fun p => sink_reused_entry B p.1 p.2),
        fresh_buffers := st.fresh_buffers
          ++ l.filterMap (fun p => sink_fresh_entry B p.1 p.2),
        buffers := l.foldl
          (fun b p =>
            if (alookup B p.1).isSome then removeAssoc b p.1 else b)
          st.buffers } := by
  induction l with
  | nil =>
    intro st _ _
    simp
  | cons p rest ih =>
    intro st hnd hinv
    simp only [List.map_cons, List.nodup_cons] at hnd
    have hB : alookup st.buffers p.1 = alookup B p.1 := hinv p.1 (by simp)
    have hinv2 : ∀ k, k ∈ rest.map Prod.fst →
        alookup (if (alookup B p.1).isSome then removeAssoc st.buffers p.1
          else st.buffers) k = alookup B k := by
      intro k hk
      have hkne : ¬ p.1 = k := by
        intro h
        exact hnd.1 (h ▸ hk)
      by_cases hc : (alookup B p.1).isSome
      · rw [if_pos hc, alookup_removeAssoc_ne _ _ _ hkne]
        exact hinv k (by simp [hk])
      · rw [if_neg hc]
        exact hinv k (by simp [hk])
    rw [List.foldl_cons, build_sink_step_spec g B st p.1 p.2 hB, ih _ hnd.2]
    · simp [filterMap_cons_toList, List.append_assoc]
    · exact hinv2

/-- The loop phase of `build_pieces` in closed form: every accumulated list
is the per-component observation functions mapped over the diff-filtered
configuration, in configuration order. Requires the (validated) config to
have no duplicate sink keys, since the previous-buffers map is consumed
destructively. -/
lemma build_pieces_state_spec (reg : TableRegistry) (config : Config)
    (diff : Diff) (B : List (ComponentKey × BuiltBuffer))
    (hnd : ((new_sinks config diff).map Prod.fst).Nodup) :
    build_pieces_state reg config diff B =
      { inputs := (new_transforms config diff).filterMap
            (fun p => transform_input_entry p.1 p.2)
          ++ (new_sinks config diff).filterMap
            (fun p => sink_input_entry B p.1 p.2),
        outputs := (new_sources config diff).filterMap
            (fun p => source_output p.1 p.2)
          ++ ((new_transforms config diff).map
            (fun p => transform_outputs_entries p.1 p.2)).flatten,
        tasks := (new_sources config diff).filterMap
            (fun p => source_task_entry p.1 p.2)
          ++ (new_transforms config diff).filterMap
            (fun p => transform_task_entry p.1 p.2)
          ++ (new_sinks config diff).filterMap
            (fun p => sink_task_entry B p.1 p.2),
        source_tasks := (new_sources config diff).filterMap
          (fun p => source_server_entry p.1 p.2),
        healthchecks := (new_sinks config diff).filterMap
          (fun p => sink_healthcheck_entry config.healthchecks_enabled B
            p.1 p.2),
        detach_triggers := (new_sinks config diff).filterMap
          (fun p => sink_detach_entry B p.1 p.2),
        errors := expected_errors reg config diff B,
        buffers := (new_sinks config diff).foldl
          (fun b p =>
            if (alookup B p.1).isSome then removeAssoc b p.1 else b) B,
        reused_buffers := (new_sinks config diff).filterMap
          (fun p => sink_reused_entry B p.1 p.2),
        fresh_buffers := (new_sinks config diff).filterMap
          (fun p => sink_fresh_entry B p.1 p.2) } := by
  simp only [build_pieces_state]
  rw [show (config.sources.filter (fun p => diff.sources_new.contains p.1))
      = new_sources config diff from rfl,
    show (config.transforms.filter
        (fun p => diff.transforms_new.contains p.1))
      = new_transforms config diff from rfl,
    show (config.sinks.filter (fun p => diff.sinks_new.contains p.1))
      = new_sinks config diff from rfl]
  rw [sources_fold_spec, transforms_fold_spec,
    sinks_fold_spec config.healthchecks_enabled B (new_sinks config diff) _
      hnd (fun k _ => rfl)]
  simp [expected_errors, load_enrichment_tables, load_tables_loop_spec,
    List.append_assoc]

/-- C1: `build_pieces(config, diff, previous_buffers)` returns `Ok(Pieces)`
if and only if no enrichment table, source, transform, or sink build fails;
otherwise it returns `Err` with a non-empty list of error strings, and every
component in the diff is attempted — the error list is exactly the
concatenation, in configuration order, of the independent per-component
error observations, one entry per failed component, regardless of earlier
failures. -/
theorem build_pieces_ok_iff (reg : TableRegistry) (config : Config)
    (diff : Diff) (B : List (ComponentKey × BuiltBuffer))
    (hnd : ((new_sinks config diff).map Prod.fst).Nodup) :
    ((∃ p, build_pieces reg config diff B = .ok p) ↔
      (∀ p ∈ config.enrichment_tables, table_error reg diff p.1 p.2 = none)
      ∧ (∀ p ∈ new_sources config diff, source_error p.1 p.2 = none)
      ∧ (∀ p ∈ new_transforms config diff, transform_error p.1 p.2 = none)
      ∧ (∀ p ∈ new_sinks config diff, sink_error B p.1 p.2 = none)) ∧
    (∀ es, build_pieces reg config diff B = .error es →
      es ≠ [] ∧ es = expected_errors reg config diff B) := by
  have hst := build_pieces_state_spec reg config diff B hnd
  have herr : (build_pieces_state reg config diff B).errors
      = expected_errors reg config diff B := by rw [hst]
  have hiff : expected_errors reg config diff B = [] ↔
      ((∀ p ∈ config.enrichment_tables, table_error reg diff p.1 p.2 = none)
      ∧ (∀ p ∈ new_sources config diff, source_error p.1 p.2 = none)
      ∧ (∀ p ∈ new_transforms config diff, transform_error p.1 p.2 = none)
      ∧ (∀ p ∈ new_sinks config diff, sink_error B p.1 p.2 = none)) := by
    simp [expected_errors, List.append_eq_nil, List.filterMap_eq_nil_iff]
  constructor
  · by_cases hc : expected_errors reg config diff B = []
    · simp only [build_pieces, herr, hc, if_pos rfl]
      constructor
      · intro _
        exact hiff.mp hc
      · intro _
        exact ⟨_, rfl⟩
    · simp only [build_pieces, herr, if_neg hc]
      constructor
      · intro h
        obtain ⟨p, hp⟩ := h
        cases hp
      · intro h
        exact absurd (hiff.mpr h) hc
  · intro es hes
    by_cases hc : expected_errors reg config diff B = []
    · simp only [build_pieces, herr, hc, if_pos rfl] at hes
      cases hes
    · simp only [build_pieces, herr, if_neg hc] at hes
      cases hes
      exact ⟨hc, rfl⟩

/-- Witness for the C1 theorem at a concrete configuration. -/
theorem build_pieces_ok_iff_witness :
    ∃ p, build_pieces ⟨[], [], false⟩ ⟨[], [], [], [], true⟩
      ⟨[], [], [], []⟩ [] = .ok p :=
  (build_pieces_ok_iff ⟨[], [], false⟩ ⟨[], [], [], [], true⟩
      ⟨[], [], [], []⟩ [] (by simp [new_sinks])).1.mpr
    ⟨by simp, by simp [new_sources], by simp [new_transforms],
      by simp [new_sinks]⟩

/-! Key-membership utilities for the entry functions. -/

lemma nodup_key_eq {κ α : Type} (l : List (κ × α))
    (hnd : (l.map Prod.fst).Nodup) (p q : κ × α) (hp : p ∈ l) (hq : q ∈ l)
    (h : p.1 = q.1) : p = q := by
  induction l with
  | nil => simp at hp
  | cons r rest ih =>
    simp only [List.map_cons, List.nodup_cons] at hnd
    rcases List.mem_cons.mp hp with hp1 | hp1 <;>
      rcases List.mem_cons.mp hq with hq1 | hq1
    · rw [hp1, hq1]
    · subst hp1
      exact absurd (h ▸ List.mem_map.mpr ⟨q, hq1, rfl⟩) hnd.1
    · subst hq1
      exact absurd (h ▸ List.mem_map.mpr ⟨p, hp1, rfl⟩) hnd.1
    · exact ih hnd.2 hp1 hq1

/-- Membership in a filterMap of a key-trace function (one that reports the
item's own key): with nodup keys it is decided by the item itself. -/
lemma mem_filterMap_key {κ α : Type} (f : (κ × α) → Option κ)
    (hf : ∀ p q, f p = some q → q = p.1) (l : List (κ × α)) (key : κ)
    (a : α) (hnd : (l.map Prod.fst).Nodup) (hmem : (key, a) ∈ l) :
    key ∈ l.filterMap f ↔ f (key, a) = some key := by
  constructor
  · intro h
    obtain ⟨p, hp, hfp⟩ := List.mem_filterMap.mp h
    have h1 : key = p.1 := hf p key hfp
    have h2 : p = (key, a) :=
      nodup_key_eq l hnd p (key, a) hp hmem h1.symm
    rw [h2] at hfp
    exact hfp
  · intro h
    exact List.mem_filterMap.mpr ⟨(key, a), hmem, h⟩

/-- The keys of a filterMap of an entry-producing function that keeps each
item's own key are among the keys of the underlying list. -/
lemma keys_filterMap_subset {κ α β : Type}
    (f : (κ × α) → Option (κ × β))
    (hf : ∀ p q, f p = some q → q.1 = p.1) (l : List (κ × α)) (key : κ)
    (h : key ∈ (l.filterMap f).map Prod.fst) : key ∈ l.map Prod.fst := by
  obtain ⟨q, hq, hq1⟩ := List.mem_map.mp h
  obtain ⟨p, hp, hfp⟩ := List.mem_filterMap.mp hq
  exact List.mem_map.mpr ⟨p, hp, by rw [← hq1, hf p q hfp]⟩

lemma source_task_entry_key (p : ComponentKey × SourceOuter)
    (q : ComponentKey × Task) (h : source_task_entry p.1 p.2 = some q) :
    q.1 = p.1 := by
  revert h
  unfold source_task_entry
  cases p.2.build <;> intro h <;> ((try cases h) <;> rfl)

lemma source_server_entry_key (p : ComponentKey × SourceOuter)
    (q : ComponentKey × Task) (h : source_server_entry p.1 p.2 = some q) :
    q.1 = p.1 := by
  revert h
  unfold source_server_entry
  cases p.2.build <;> intro h <;> ((try cases h) <;> rfl)

lemma transform_input_entry_key (p : ComponentKey × TransformOuter)
    (q : ComponentKey × (InputTx × List OutputId))
    (h : transform_input_entry p.1 p.2 = some q) : q.1 = p.1 := by
  revert h
  unfold transform_input_entry
  cases p.2.build <;> intro h <;> ((try cases h) <;> rfl)

lemma transform_task_entry_key (p : ComponentKey × TransformOuter)
    (q : ComponentKey × Task) (h : transform_task_entry p.1 p.2 = some q) :
    q.1 = p.1 := by
  revert h
  unfold transform_task_entry
  cases p.2.build <;> intro h <;> ((try cases h) <;> rfl)

lemma sink_input_entry_key (B : List (ComponentKey × BuiltBuffer))
    (p : ComponentKey × SinkOuter)
    (q : ComponentKey × (InputTx × List OutputId))
    (h : sink_input_entry B p.1 p.2 = some q) : q.1 = p.1 := by
  revert h
  unfold sink_input_entry
  cases sink_used_buffer B p.1 p.2 <;> cases p.2.build <;>
    intro h <;> ((try cases h) <;> rfl)

lemma sink_task_entry_key (B : List (ComponentKey × BuiltBuffer))
    (p : ComponentKey × SinkOuter) (q : ComponentKey × Task)
    (h : sink_task_entry B p.1 p.2 = some q) : q.1 = p.1 := by
  revert h
  unfold sink_task_entry
  cases sink_used_buffer B p.1 p.2 <;> cases p.2.build <;>
    intro h <;> ((try cases h) <;> rfl)

lemma sink_healthcheck_entry_key (g : Bool)
    (B : List (ComponentKey × BuiltBuffer)) (p : ComponentKey × SinkOuter)
    (q : ComponentKey × Task)
    (h : sink_healthcheck_entry g B p.1 p.2 = some q) : q.1 = p.1 := by
  revert h
  unfold sink_healthcheck_entry
  cases sink_used_buffer B p.1 p.2 <;> cases p.2.build <;>
    intro h <;> ((try cases h) <;> rfl)

lemma sink_reused_entry_key (B : List (ComponentKey × BuiltBuffer))
    (p : ComponentKey × SinkOuter) (q : ComponentKey)
    (h : sink_reused_entry B p.1 p.2 = some q) : q = p.1 := by
  revert h
  unfold sink_reused_entry
  cases alookup B p.1 <;> intro h <;> ((try cases h) <;> rfl)

lemma sink_fresh_entry_key (B : List (ComponentKey × BuiltBuffer))
    (p : ComponentKey × SinkOuter) (q : ComponentKey)
    (h : sink_fresh_entry B p.1 p.2 = some q) : q = p.1 := by
  revert h
  unfold sink_fresh_entry
  cases alookup B p.1 <;> cases p.2.buffer_build <;>
    intro h <;> ((try cases h) <;> rfl)

lemma new_sinks_nodup (config : Config) (diff : Diff)
    (hnd : (config.sinks.map Prod.fst).Nodup) :
    ((new_sinks config diff).map Prod.fst).Nodup :=
  hnd.sublist (List.Sublist.map Prod.fst (List.filter_sublist _))

lemma mem_new_sinks (config : Config) (diff : Diff) (key : ComponentKey)
    (s : SinkOuter) (hmem : (key, s) ∈ config.sinks)
    (hnew : diff.sinks_new.contains key = true) :
    (key, s) ∈ new_sinks config diff :=
  List.mem_filter.mpr ⟨hmem, hnew⟩

lemma not_mem_new_keys {α : Type}
    (l : List (ComponentKey × α)) (q : ComponentKey × α → Bool)
    (key : ComponentKey) (h : key ∉ l.map Prod.fst) :
    key ∉ (l.filter q).map Prod.fst := fun hk =>
  h ((List.Sublist.map Prod.fst (List.filter_sublist _)).mem hk)

/-- C2: for every sink key in `diff.sinks.new`, `build_pieces` claims the
stored `(tx, rx, acker)` triple verbatim when `previous_buffers` contains
the key — constructing no new buffer — and constructs a fresh buffer from
the sink's buffer configuration exactly when the key is absent; the triple
actually used (sender in `inputs`, receiver and acker in the sink task) is
the stored one in the first case and the freshly built one in the second. -/
theorem sink_buffer_reuse (reg : TableRegistry) (config : Config)
    (diff : Diff) (B : List (ComponentKey × BuiltBuffer))
    (key : ComponentKey) (s : SinkOuter)
    (hmem : (key, s) ∈ config.sinks)
    (hnew : diff.sinks_new.contains key = true)
    (hnd : (config.sinks.map Prod.fst).Nodup)
    (htr : key ∉ config.transforms.map Prod.fst)
    (hsrc : key ∉ config.sources.map Prod.fst) :
    (key ∈ (build_pieces_state reg config diff B).reused_buffers ↔
      (alookup B key).isSome = true) ∧
    (key ∈ (build_pieces_state reg config diff B).fresh_buffers ↔
      (alookup B key = none ∧ ∃ t, s.buffer_build = .ok t)) ∧
    (∀ triple hc, alookup B key = some triple → s.build = .ok hc →
      alookup (build_pieces_state reg config diff B).inputs key
        = some (InputTx.sinkBuffer triple.tx, s.inputs) ∧
      alookup (build_pieces_state reg config diff B).tasks key
        = some (Task.sinkTask triple.rx triple.acker)) ∧
    (∀ triple hc, alookup B key = none → s.buffer_build = .ok triple →
      s.build = .ok hc →
      alookup (build_pieces_state reg config diff B).inputs key
        = some (InputTx.sinkBuffer triple.tx, s.inputs) ∧
      alookup (build_pieces_state reg config diff B).tasks key
        = some (Task.sinkTask triple.rx triple.acker)) := by
  have hndf : ((new_sinks config diff).map Prod.fst).Nodup :=
    new_sinks_nodup config diff hnd
  have hmemf : (key, s) ∈ new_sinks config diff :=
    mem_new_sinks config diff key s hmem hnew
  have htrf : key ∉ (new_transforms config diff).map Prod.fst :=
    not_mem_new_keys _ _ key htr
  have hsrcf : key ∉ (new_sources config diff).map Prod.fst :=
    not_mem_new_keys _ _ key hsrc
  have hst := build_pieces_state_spec reg config diff B hndf
  have htasks : ∀ trip : BuiltBuffer, sink_used_buffer B key s = some trip →
      ∀ hcv : HealthcheckFut, s.build = .ok hcv →
      alookup (build_pieces_state reg config diff B).inputs key
        = some (InputTx.sinkBuffer trip.tx, s.inputs) ∧
      alookup (build_pieces_state reg config diff B).tasks key
        = some (Task.sinkTask trip.rx trip.acker) := by
    intro trip hused hcv hsb
    have h1 : alookup ((new_transforms config diff).filterMap
        (fun p => transform_input_entry p.1 p.2)) key = none :=
      alookup_filterMap_not_mem _ transform_input_entry_key _ key htrf
    have h2 : alookup ((new_sinks config diff).filterMap
        (fun p => sink_input_entry B p.1 p.2)) key
        = (sink_input_entry B key s).map (fun q => q.2) :=
      alookup_filterMap_mem _ (sink_input_entry_key B) _ key s hndf hmemf
    have h3 : alookup ((new_sources config diff).filterMap
        (fun p => source_task_entry p.1 p.2)) key = none :=
      alookup_filterMap_not_mem _ source_task_entry_key _ key hsrcf
    have h4 : alookup ((new_transforms config diff).filterMap
        (fun p => transform_task_entry p.1 p.2)) key = none :=
      alookup_filterMap_not_mem _ transform_task_entry_key _ key htrf
    have h5 : alookup ((new_sinks config diff).filterMap
        (fun p => sink_task_entry B p.1 p.2)) key
        = (sink_task_entry B key s).map (fun q => q.2) :=
      alookup_filterMap_mem _ (sink_task_entry_key B) _ key s hndf hmemf
    constructor
    · rw [hst]
      show alookup ((new_transforms config diff).filterMap
          (fun p => transform_input_entry p.1 p.2)
        ++ (new_sinks config diff).filterMap
          (fun p => sink_input_entry B p.1 p.2)) key = _
      rw [alookup_append, h1, h2]
      simp [sink_input_entry, hused, hsb]
    · rw [hst]
      show alookup ((new_sources config diff).filterMap
          (fun p => source_task_entry p.1 p.2)
        ++ (new_transforms config diff).filterMap
          (fun p => transform_task_entry p.1 p.2)
        ++ (new_sinks config diff).filterMap
          (fun p => sink_task_entry B p.1 p.2)) key = _
      rw [alookup_append, alookup_append, h3, h4, h5]
      simp [sink_task_entry, hused, hsb]
  refine ⟨?_, ?_, ?_, ?_⟩
  · rw [hst]
    show key ∈ (new_sinks config diff).filterMap
        (fun p => sink_reused_entry B p.1 p.2) ↔ _
    rw [mem_filterMap_key _ (sink_reused_entry_key B) _ key s hndf hmemf]
    cases hB : alookup B key <;> simp [sink_reused_entry, hB]
  · rw [hst]
    show key ∈ (new_sinks config diff).filterMap
        (fun p => sink_fresh_entry B p.1 p.2) ↔ _
    rw [mem_filterMap_key _ (sink_fresh_entry_key B) _ key s hndf hmemf]
    cases hB : alookup B key <;> cases hbb : s.buffer_build <;>
      simp [sink_fresh_entry, hB, hbb]
  · intro triple hc hB hsb
    exact htasks triple (by simp [sink_used_buffer, hB]) hc hsb
  · intro triple hc hB hbb hsb
    exact htasks triple (by simp [sink_used_buffer, hB, hbb]) hc hsb

lemma transform_input_task_isSome (key : ComponentKey)
    (t : TransformOuter) :
    (transform_input_entry key t).isSome
      = (transform_task_entry key t).isSome := by
  cases hb : t.build <;>
    simp [transform_input_entry, transform_task_entry, hb]

lemma sink_input_task_isSome (B : List (ComponentKey × BuiltBuffer))
    (key : ComponentKey) (s : SinkOuter) :
    (sink_input_entry B key s).isSome
      = (sink_task_entry B key s).isSome := by
  cases hu : sink_used_buffer B key s <;> cases hb : s.build <;>
    simp [sink_input_entry, sink_task_entry, hu, hb]

/-- Keys of entries contributed by a diff-filtered component list are keys
of the full component list. -/
lemma keys_filtered_subset {α β : Type} (l : List (ComponentKey × α))
    (q : ComponentKey × α → Bool)
    (f : (ComponentKey × α) → Option (ComponentKey × β))
    (hf : ∀ p r, f p = some r → r.1 = p.1) (key : ComponentKey)
    (h : key ∈ ((l.filter q).filterMap f).map Prod.fst) :
    key ∈ l.map Prod.fst :=
  (List.Sublist.map Prod.fst (List.filter_sublist _)).mem
    (keys_filterMap_subset f hf _ key h)

/-- C7: in every `Pieces` bundle returned by `build_pieces`, each component
key present in `inputs` (new transforms and sinks) is present in `tasks` and
absent from `source_tasks`, and source keys are never present in `inputs`
(assuming the validated config's source keys are disjoint from transform
and sink keys). -/
theorem pieces_task_partition (reg : TableRegistry) (config : Config)
    (diff : Diff) (B : List (ComponentKey × BuiltBuffer)) (p : Pieces)
    (hok : build_pieces reg config diff B = .ok p)
    (hnd : ((new_sinks config diff).map Prod.fst).Nodup)
    (hdst : ∀ k, k ∈ config.sources.map Prod.fst →
      k ∉ config.transforms.map Prod.fst)
    (hdss : ∀ k, k ∈ config.sources.map Prod.fst →
      k ∉ config.sinks.map Prod.fst) :
    (∀ key, key ∈ p.inputs.map Prod.fst →
      key ∈ p.tasks.map Prod.fst ∧ key ∉ p.source_tasks.map Prod.fst) ∧
    (∀ key, key ∈ config.sources.map Prod.fst →
      key ∉ p.inputs.map Prod.fst) := by
  have hst := build_pieces_state_spec reg config diff B hnd
  have hp : p.inputs = (build_pieces_state reg config diff B).inputs ∧
      p.tasks = (build_pieces_state reg config diff B).tasks ∧
      p.source_tasks
        = (build_pieces_state reg config diff B).source_tasks := by
    revert hok
    simp only [build_pieces]
    split
    · intro h
      cases h
      exact ⟨rfl, rfl, rfl⟩
    · intro h
      cases h
  obtain ⟨hpi, hpt, hps⟩ := hp
  have hinputs : ∀ key, key ∈ p.inputs.map Prod.fst →
      key ∈ ((new_transforms config diff).filterMap
        (fun r => transform_input_entry r.1 r.2)).map Prod.fst ∨
      key ∈ ((new_sinks config diff).filterMap
        (fun r => sink_input_entry B r.1 r.2)).map Prod.fst := by
    intro key hkey
    rw [hpi, hst] at hkey
    replace hkey : key ∈ (((new_transforms config diff).filterMap
        (fun r => transform_input_entry r.1 r.2))
      ++ ((new_sinks config diff).filterMap
        (fun r => sink_input_entry B r.1 r.2))).map Prod.fst := hkey
    rw [List.map_append, List.mem_append] at hkey
    exact hkey
  have hsrc_tasks_sub : ∀ key, key ∈ p.source_tasks.map Prod.fst →
      key ∈ config.sources.map Prod.fst := by
    intro key hkey
    rw [hps, hst] at hkey
    replace hkey : key ∈ ((new_sources config diff).filterMap
        (fun r => source_server_entry r.1 r.2)).map Prod.fst := hkey
    exact keys_filtered_subset _ _ _ source_server_entry_key key hkey
  constructor
  · intro key hkey
    have htasks : key ∈ p.tasks.map Prod.fst ∧
        (key ∈ config.transforms.map Prod.fst ∨
          key ∈ config.sinks.map Prod.fst) := by
      rcases hinputs key hkey with hk | hk
      · obtain ⟨q, hq, hq1⟩ := List.mem_map.mp hk
        obtain ⟨pp, hpp, hfpp⟩ := List.mem_filterMap.mp hq
        have hkq : q.1 = pp.1 := transform_input_entry_key pp q hfpp
        have hsome : (transform_task_entry pp.1 pp.2).isSome = true := by
          rw [← transform_input_task_isSome]
          simp [hfpp]
        obtain ⟨r, hr⟩ := Option.isSome_iff_exists.mp hsome
        have hr1 : r.1 = pp.1 := transform_task_entry_key pp r hr
        constructor
        · rw [hpt, hst]
          show key ∈ (((new_sources config diff).filterMap
              (fun r => source_task_entry r.1 r.2))
            ++ ((new_transforms config diff).filterMap
              (fun r => transform_task_entry r.1 r.2))
            ++ ((new_sinks config diff).filterMap
              (fun r => sink_task_entry B r.1 r.2))).map Prod.fst
          simp only [List.map_append, List.mem_append]
          refine Or.inl (Or.inr ?_)
          exact List.mem_map.mpr ⟨r, List.mem_filterMap.mpr ⟨pp, hpp, hr⟩,
            by rw [hr1, ← hkq, hq1]⟩
        · left
          have hpk : pp.1 ∈ (new_transforms config diff).map Prod.fst :=
            List.mem_map.mpr ⟨pp, hpp, rfl⟩
          have := (List.Sublist.map Prod.fst
            (List.filter_sublist _)).mem hpk
          rw [← hq1, hkq]
          exact this
      · obtain ⟨q, hq, hq1⟩ := List.mem_map.mp hk
        obtain ⟨pp, hpp, hfpp⟩ := List.mem_filterMap.mp hq
        have hkq : q.1 = pp.1 := sink_input_entry_key B pp q hfpp
        have hsome : (sink_task_entry B pp.1 pp.2).isSome = true := by
          rw [← sink_input_task_isSome]
          simp [hfpp]
        obtain ⟨r, hr⟩ := Option.isSome_iff_exists.mp hsome
        have hr1 : r.1 = pp.1 := sink_task_entry_key B pp r hr
        constructor
        · rw [hpt, hst]
          show key ∈ (((new_sources config diff).filterMap
              (fun r => source_task_entry r.1 r.2))
            ++ ((new_transforms config diff).filterMap
              (fun r => transform_task_entry r.1 r.2))
            ++ ((new_sinks config diff).filterMap
              (fun r => sink_task_entry B r.1 r.2))).map Prod.fst
          simp only [List.map_append, List.mem_append]
          refine Or.inr ?_
          exact List.mem_map.mpr ⟨r, List.mem_filterMap.mpr ⟨pp, hpp, hr⟩,
            by rw [hr1, ← hkq, hq1]⟩
        · right
          have hpk : pp.1 ∈ (new_sinks config diff).map Prod.fst :=
            List.mem_map.mpr ⟨pp, hpp, rfl⟩
          have := (List.Sublist.map Prod.fst
            (List.filter_sublist _)).mem hpk
          rw [← hq1, hkq]
          exact this
    refine ⟨htasks.1, ?_⟩
    intro hcon
    have hsrc : key ∈ config.sources.map Prod.fst :=
      hsrc_tasks_sub key hcon
    rcases htasks.2 with h | h
    · exact hdst key hsrc h
    · exact hdss key hsrc h
  · intro key hkeysrc hcon
    rcases hinputs key hcon with hk | hk
    · exact hdst key hkeysrc
        (keys_filtered_subset _ _ _ transform_input_entry_key key hk)
    · exact hdss key hkeysrc
        (keys_filtered_subset _ _ _ (sink_input_entry_key B) key hk)

/-- Witness for the C7 theorem at the concrete one-sink configuration: the
sink key `k`, present in `inputs`, is in `tasks` and not in
`source_tasks`. -/
theorem pieces_task_partition_witness :
    "k" ∈ piecesW.tasks.map Prod.fst ∧
    "k" ∉ piecesW.source_tasks.map Prod.fst :=
  (pieces_task_partition regW configW diffW buffersW piecesW rfl
      (by decide) (by simp [configW]) (by simp [configW])).1 "k"
    (by simp [piecesW])

/-- C8: `build_pieces` is deterministic — two runs on the same
`(Config, Diff, previous_buffers)` produce the same error list and the same
component keys in `inputs`, `outputs` and `tasks`; moreover the error list
and the key lists are exactly the configuration-ordered per-component
observations, so construction is reproducible. -/
theorem build_pieces_deterministic (reg : TableRegistry) (config : Config)
    (diff : Diff) (B : List (ComponentKey × BuiltBuffer))
    (hnd : ((new_sinks config diff).map Prod.fst).Nodup) :
    (∀ es1 es2, build_pieces reg config diff B = .error es1 →
      build_pieces reg config diff B = .error es2 → es1 = es2) ∧
    (∀ p1 p2, build_pieces reg config diff B = .ok p1 →
      build_pieces reg config diff B = .ok p2 →
      p1.inputs.map Prod.fst = p2.inputs.map Prod.fst ∧
      p1.outputs.map Prod.fst = p2.outputs.map Prod.fst ∧
      p1.tasks.map Prod.fst = p2.tasks.map Prod.fst) ∧
    (∀ es, build_pieces reg config diff B = .error es →
      es = expected_errors reg config diff B) ∧
    (∀ p1, build_pieces reg config diff B = .ok p1 →
      p1.inputs.map Prod.fst
        = ((new_transforms config diff).filterMap
            (fun q => transform_input_entry q.1 q.2)).map Prod.fst
          ++ ((new_sinks config diff).filterMap
            (fun q => sink_input_entry B q.1 q.2)).map Prod.fst ∧
      p1.tasks.map Prod.fst
        = ((new_sources config diff).filterMap
            (fun q => source_task_entry q.1 q.2)).map Prod.fst
          ++ ((new_transforms config diff).filterMap
            (fun q => transform_task_entry q.1 q.2)).map Prod.fst
          ++ ((new_sinks config diff).filterMap
            (fun q => sink_task_entry B q.1 q.2)).map Prod.fst) := by
  have hst := build_pieces_state_spec reg config diff B hnd
  have herr : (build_pieces_state reg config diff B).errors
      = expected_errors reg config diff B := by rw [hst]
  refine ⟨?_, ?_, ?_, ?_⟩
  · intro es1 es2 h1 h2
    rw [h1] at h2
    cases h2
    rfl
  · intro p1 p2 h1 h2
    rw [h1] at h2
    cases h2
    exact ⟨rfl, rfl, rfl⟩
  · intro es hes
    by_cases hc : (build_pieces_state reg config diff B).errors = []
    · simp only [build_pieces, if_pos hc] at hes
      cases hes
    · simp only [build_pieces, if_neg hc] at hes
      cases hes
      exact herr
  · intro p1 h1
    have hp : p1.inputs = (build_pieces_state reg config diff B).inputs ∧
        p1.tasks = (build_pieces_state reg config diff B).tasks := by
      revert h1
      simp only [build_pieces]
      split
      · intro h
        cases h
        exact ⟨rfl, rfl⟩
      · intro h
        cases h
    rw [hp.1, hp.2, hst]
    constructor
    · show (((new_transforms config diff).filterMap
          (fun q => transform_input_entry q.1 q.2))
        ++ ((new_sinks config diff).filterMap
          (fun q => sink_input_entry B q.1 q.2))).map Prod.fst = _
      rw [List.map_append]
    · show (((new_sources config diff).filterMap
          (fun q => source_task_entry q.1 q.2))
        ++ ((new_transforms config diff).filterMap
          (fun q => transform_task_entry q.1 q.2))
        ++ ((new_sinks config diff).filterMap
          (fun q => sink_task_entry B q.1 q.2))).map Prod.fst = _
      rw [List.map_append, List.map_append]

/-- Witness for the C8 theorem at the concrete one-sink configuration. -/
theorem build_pieces_deterministic_witness :
    piecesW.inputs.map Prod.fst = ["k"] :=
  (((build_pieces_deterministic regW configW diffW buffersW
      (by decide)).2.2.2 piecesW rfl).1).trans (by decide)

/-- C6: for every new sink, the recorded healthcheck task is enabled exactly
when the per-sink and global flags both hold, and the healthcheck task runs
the healthcheck future under a 10-second timeout: `Ok` when it passes in
time, `Err` when it fails in time or when the timeout elapses first, and
immediate `Ok` when disabled. -/
theorem sink_healthcheck_semantics (reg : TableRegistry) (config : Config)
    (diff : Diff) (B : List (ComponentKey × BuiltBuffer))
    (key : ComponentKey) (s : SinkOuter) (hcv : HealthcheckFut)
    (hmem : (key, s) ∈ config.sinks)
    (hnew : diff.sinks_new.contains key = true)
    (hnd : (config.sinks.map Prod.fst).Nodup)
    (hbuild : s.build = .ok hcv)
    (hbuf : (sink_used_buffer B key s).isSome = true) :
    alookup (build_pieces_state reg config diff B).healthchecks key
      = some (Task.healthcheck
        (s.healthcheck_enabled && config.healthchecks_enabled) hcv) ∧
    (∀ h2 : HealthcheckFut,
      (h2.duration_ms ≤ 10000 → h2.result = .ok () →
        healthcheck_task true h2 = .ok TaskOutput.healthcheck) ∧
      (∀ e, h2.duration_ms ≤ 10000 → h2.result = .error e →
        healthcheck_task true h2 = .error ()) ∧
      (10000 < h2.duration_ms → healthcheck_task true h2 = .error ()) ∧
      healthcheck_task false h2 = .ok TaskOutput.healthcheck) := by
  have hndf : ((new_sinks config diff).map Prod.fst).Nodup :=
    new_sinks_nodup config diff hnd
  have hmemf : (key, s) ∈ new_sinks config diff :=
    mem_new_sinks config diff key s hmem hnew
  have hst := build_pieces_state_spec reg config diff B hndf
  constructor
  · obtain ⟨trip, htrip⟩ := Option.isSome_iff_exists.mp hbuf
    rw [hst]
    show alookup ((new_sinks config diff).filterMap
        (fun r => sink_healthcheck_entry config.healthchecks_enabled B
          r.1 r.2)) key = _
    rw [alookup_filterMap_mem _
      (sink_healthcheck_entry_key config.healthchecks_enabled B) _ key s
      hndf hmemf]
    simp [sink_healthcheck_entry, htrip, hbuild]
  · intro h2
    refine ⟨?_, ?_, ?_, ?_⟩
    · intro hd hr
      simp [healthcheck_task, hd, hr]
    · intro e hd hr
      simp [healthcheck_task, hd, hr]
    · intro hd
      simp [healthcheck_task, Nat.not_le.mpr hd]
    · rfl

/-- Witness for the C6 theorem: at the concrete one-sink configuration the
healthcheck task is recorded enabled with the 5 ms passing future, and a
20-second healthcheck future times out. -/
theorem sink_healthcheck_semantics_witness :
    alookup (build_pieces_state regW configW diffW buffersW).healthchecks
        "k" = some (Task.healthcheck true ⟨5, .ok ()⟩) ∧
    healthcheck_task true ⟨20000, .ok ()⟩ = .error () :=
  ⟨(sink_healthcheck_semantics regW configW diffW buffersW "k" sinkW
      ⟨5, .ok ()⟩ (by simp [configW]) rfl (by decide) rfl (by decide)).1,
   ((sink_healthcheck_semantics regW configW diffW buffersW "k" sinkW
      ⟨5, .ok ()⟩ (by simp [configW]) rfl (by decide) rfl (by decide)).2
    ⟨20000, .ok ()⟩).2.2.1 (by decide)⟩

/-- C5: for every new source, the server task is the biased race of the
source future against the force-shutdown tripwire: whenever the tripwire has
resolved, one poll completes with `Ok(TaskOutput::Source)` without polling
the source future (whose state, including its poll count, is untouched, so
the future is simply dropped); while the tripwire is unresolved, the source
future is polled and its result is returned. -/
theorem source_server_biased_select (reg : TableRegistry) (config : Config)
    (diff : Diff) (B : List (ComponentKey × BuiltBuffer))
    (key : ComponentKey) (s : SourceOuter) (fut : SourceFut)
    (hmem : (key, s) ∈ config.sources)
    (hnew : diff.sources_new.contains key = true)
    (hnd : (config.sources.map Prod.fst).Nodup)
    (hnds : ((new_sinks config diff).map Prod.fst).Nodup)
    (hbuild : s.build = .ok fut) :
    alookup (build_pieces_state reg config diff B).source_tasks key
      = some (Task.sourceServer fut) ∧
    (∀ f : SourceFut, server_task_poll true f
        = (some (.ok TaskOutput.source), f)) ∧
    (∀ f : SourceFut, f.ready = none →
      server_task_poll false f = (none, { f with polls := f.polls + 1 })) ∧
    (∀ f : SourceFut, f.ready = some (.ok ()) →
      server_task_poll false f
        = (some (.ok TaskOutput.source), { f with polls := f.polls + 1 })) ∧
    (∀ f : SourceFut, f.ready = some (.error ()) →
      server_task_poll false f
        = (some (.error ()), { f with polls := f.polls + 1 })) := by
  have hndf : ((new_sources config diff).map Prod.fst).Nodup :=
    hnd.sublist (List.Sublist.map Prod.fst (List.filter_sublist _))
  have hmemf : (key, s) ∈ new_sources config diff :=
    List.mem_filter.mpr ⟨hmem, hnew⟩
  have hst := build_pieces_state_spec reg config diff B hnds
  refine ⟨?_, ?_, ?_, ?_, ?_⟩
  · rw [hst]
    show alookup ((new_sources config diff).filterMap
        (fun r => source_server_entry r.1 r.2)) key = _
    rw [alookup_filterMap_mem _ source_server_entry_key _ key s hndf hmemf]
    simp [source_server_entry, hbuild]
  · intro f
    rfl
  · intro f h
    simp [server_task_poll, SourceFut.poll, h]
  · intro f h
    simp [server_task_poll, SourceFut.poll, h]
  · intro f h
    simp [server_task_poll, SourceFut.poll, h]

/-- Witness for the C5 theorem at a concrete one-source configuration: the
server task holds the built future, and a poll with the tripwire resolved
completes without touching it. -/
theorem source_server_biased_select_witness :
    alookup (build_pieces_state regW configW2 diffW2 []).source_tasks "s"
      = some (Task.sourceServer ⟨none, 0⟩) ∧
    server_task_poll true ⟨none, 5⟩
      = (some (.ok TaskOutput.source), ⟨none, 5⟩) :=
  ⟨(source_server_biased_select regW configW2 diffW2 [] "s" sourceW
      ⟨none, 0⟩ (by simp [configW2]) rfl (by decide) (by decide) rfl).1,
   (source_server_biased_select regW configW2 diffW2 [] "s" sourceW
      ⟨none, 0⟩ (by simp [configW2]) rfl (by decide) (by decide) rfl).2.1
    ⟨none, 5⟩⟩

/-- Witness for the C2 theorem: a concrete one-sink configuration with a
previous buffer present — the stored triple `(7, 8, 9)` is the one used. -/
theorem sink_buffer_reuse_witness :
    alookup (build_pieces_state regW configW diffW buffersW).inputs "k"
      = some (InputTx.sinkBuffer 7, []) :=
  ((sink_buffer_reuse regW configW diffW buffersW "k" sinkW
      (by simp [configW]) rfl (by simp [configW]) (by simp [configW])
      (by simp [configW])).2.2.1
    ⟨7, 8, 9⟩ ⟨5, .ok ()⟩ rfl rfl).1

lemma alookup_filter_key {κ α : Type} [DecidableEq κ]
    (l : List (κ × α)) (q : κ → Bool) (k : κ) (hq : q k = true) :
    alookup (l.filter (fun p => q p.1)) k = alookup l k := by
  induction l with
  | nil => rfl
  | cons p rest ih =>
    by_cases hp : p.1 = k
    · simp [List.filter_cons, alookup_cons, hp, hq]
    · cases hqp : q p.1 <;>
        simp [List.filter_cons, alookup_cons, hp, hqp, ih]

lemma table_loaded_key (reg : TableRegistry) (diff : Diff)
    (p : String × TableOuter) (q : String × Table)
    (h : table_loaded reg diff p.1 p.2 = some q) : q.1 = p.1 := by
  revert h
  unfold table_loaded
  cases process_table reg diff p.1 p.2 <;>
    intro h <;> ((try cases h) <;> rfl)

/-- C3: in `load_enrichment_tables`, a table that needs reload and is not
new has its previously registered indexes re-applied to the newly built
table; if re-applying fails, the table is excluded from the map handed to
the registry's `load`, so the previous table (with its indexes) is retained
by the swapped registry; and the map and error list are per-table
observations of the configuration, so one table's failure affects neither
the registry nor the other tables. -/
theorem enrichment_reload_isolation (reg : TableRegistry) (config : Config)
    (diff : Diff) (name : String) (tcfg : TableOuter) (table : Table)
    (hmem : (name, tcfg) ∈ config.enrichment_tables)
    (hnd : (config.enrichment_tables.map Prod.fst).Nodup)
    (hreload : reg.needs_reload name = true)
    (hnotnew : diff.enrichment_tables_new.contains name = false)
    (hbuild : tcfg.build = .ok table) :
    (applyIndexes table (reg.index_fields name) = none →
      alookup (load_tables_loop reg diff config.enrichment_tables).1 name
        = none ∧
      alookup ((load_enrichment_tables reg config diff).1).tables name
        = alookup reg.tables name) ∧
    (∀ t2, applyIndexes table (reg.index_fields name) = some t2 →
      alookup (load_tables_loop reg diff config.enrichment_tables).1 name
        = some t2) ∧
    (load_tables_loop reg diff config.enrichment_tables).1
      = config.enrichment_tables.filterMap
        (fun p => table_loaded reg diff p.1 p.2) ∧
    (load_tables_loop reg diff config.enrichment_tables).2
      = config.enrichment_tables.filterMap
        (fun p => table_error reg diff p.1 p.2) := by
  have hloop := load_tables_loop_spec reg diff config.enrichment_tables
  have h1 : (load_tables_loop reg diff config.enrichment_tables).1
      = config.enrichment_tables.filterMap
        (fun p => table_loaded reg diff p.1 p.2) := by
    rw [hloop]
  have h2 : (load_tables_loop reg diff config.enrichment_tables).2
      = config.enrichment_tables.filterMap
        (fun p => table_error reg diff p.1 p.2) := by
    rw [hloop]
  have hmemlook : alookup
      (load_tables_loop reg diff config.enrichment_tables).1 name
      = (table_loaded reg diff name tcfg).map (fun q => q.2) := by
    rw [h1]
    exact alookup_filterMap_mem _ (table_loaded_key reg diff) _ name tcfg
      hnd hmem
  have hnotmem : name ∉ diff.enrichment_tables_new := by
    simpa using hnotnew
  refine ⟨?_, ?_, h1, h2⟩
  · intro happ
    have hnonelookup : alookup
        (load_tables_loop reg diff config.enrichment_tables).1 name
        = none := by
      rw [hmemlook]
      simp [table_loaded, process_table, hreload, hnotmem, hbuild, happ]
    refine ⟨hnonelookup, ?_⟩
    have hreg : (load_enrichment_tables reg config diff).1
        = reg.load (load_tables_loop reg diff config.enrichment_tables).1
        := by
      simp [load_enrichment_tables]
    rw [hreg]
    show alookup ((load_tables_loop reg diff config.enrichment_tables).1
      ++ reg.tables.filter (fun p =>
        (alookup (load_tables_loop reg diff
          config.enrichment_tables).1 p.1).isNone)) name = _
    rw [alookup_append, hnonelookup]
    exact alookup_filter_key reg.tables
      (fun k2 => (alookup (load_tables_loop reg diff
        config.enrichment_tables).1 k2).isNone) name (by
      show (alookup (load_tables_loop reg diff
        config.enrichment_tables).1 name).isNone = true
      rw [hnonelookup]
      rfl)
  · intro t2 happ
    rw [hmemlook]
    simp [table_loaded, process_table, hreload, hnotmem, hbuild, happ]

/-- Witness for the C3 theorem: the table `t` needs reload, is not new, and
its single prior index is rejected by the rebuilt table — it is excluded
from the load map and the registry keeps the previous table. -/
theorem enrichment_reload_isolation_witness :
    alookup (load_tables_loop regW3 diffW3
      configW3.enrichment_tables).1 "t" = none ∧
    alookup ((load_enrichment_tables regW3 configW3 diffW3).1).tables "t"
      = alookup regW3.tables "t" :=
  (enrichment_reload_isolation regW3 configW3 diffW3 "t" tcfgW tableW
      (by simp [configW3]) (by decide) (by decide) (by decide) rfl).1
    (by decide)

lemma runFallible_spec (t : FallibleFunctionTransform) :
    ∀ (events : List Event) (acc1 acc2 : List Event),
    runFallibleFunction t events ⟨acc1, [("dropped", acc2)]⟩
      = ⟨acc1 ++ (events.map (fun e => (t e).1)).flatten,
         [("dropped",
           acc2 ++ (events.map (fun e => (t e).2)).flatten)]⟩ := by
  intro events
  induction events with
  | nil =>
    intro acc1 acc2
    simp [runFallibleFunction]
  | cons e rest ih =>
    intro acc1 acc2
    rcases hte : t e with ⟨b1, b2⟩
    have hstep : runFallibleFunction t (e :: rest)
        ⟨acc1, [("dropped", acc2)]⟩
        = runFallibleFunction t rest
          ⟨acc1 ++ b1, [("dropped", acc2 ++ b2)]⟩ := by
      simp [runFallibleFunction, hte, TransformOutputs.append,
        TransformOutputs.append_named]
    rw [hstep, ih]
    simp [hte]

/-- C4: the output map built by `build_transform` has only the primary
`OutputId` for a task transform and for an infallible sync transform; a
fallible sync transform additionally has exactly the named output
`"dropped"`, established at construction time; and the fallible sync runner
routes every event of the error buffer to the `"dropped"` buffer and every
event of the output buffer to the primary buffer, in order. -/
theorem transform_output_shape (node : TransformNode)
    (f : FunctionTransform) (t : FallibleFunctionTransform)
    (tt : TaskTransform) :
    (build_transform (Transform.task tt) node).2
      = [(OutputId.primary node.key, ())] ∧
    (build_transform (Transform.function f) node).2
      = [(OutputId.primary node.key, ())] ∧
    (node.named_outputs = fallibleNamedOutputs →
      (build_transform (Transform.fallibleFunction t) node).2
        = [(OutputId.named node.key "dropped", ()),
           (OutputId.primary node.key, ())]) ∧
    (∀ events : List Event,
      (runFallibleFunction t events
          (TransformOutputs.new fallibleNamedOutputs).1).primary_buffer
        = (events.map (fun e => (t e).1)).flatten ∧
      alookup (runFallibleFunction t events
          (TransformOutputs.new fallibleNamedOutputs).1).named_buffers
          "dropped"
        = some ((events.map (fun e => (t e).2)).flatten)) := by
  refine ⟨rfl, rfl, ?_, ?_⟩
  · intro h
    rw [build_transform, build_sync_transform, h]
    rfl
  · intro events
    have hnew : (TransformOutputs.new fallibleNamedOutputs).1
        = (⟨[], [("dropped", [])]⟩ : TransformOutputs) := rfl
    rw [hnew, runFallible_spec t events [] []]
    constructor
    · simp
    · simp [alookup_cons]

/-- Witness for the C4 theorem: a concrete fallible transform — the output
map is `dropped` plus primary, and one event routed to the error buffer
lands in the `"dropped"` buffer. -/
theorem transform_output_shape_witness :
    (build_transform
        (Transform.fallibleFunction (fun e => ([], [e])))
        ⟨"t", [], DataType.any, ["dropped"]⟩).2
      = [(OutputId.named "t" "dropped", ()),
         (OutputId.primary "t", ())] ∧
    alookup (runFallibleFunction (fun e => ([], [e])) [Event.log 1]
        (TransformOutputs.new fallibleNamedOutputs).1).named_buffers
        "dropped"
      = some [Event.log 1] :=
  ⟨(transform_output_shape ⟨"t", [], DataType.any, ["dropped"]⟩
      (fun e => [e]) (fun e => ([], [e])) (fun es => es)).2.2.1 rfl,
   ((transform_output_shape ⟨"t", [], DataType.any, ["dropped"]⟩
      (fun e => [e]) (fun e => ([], [e])) (fun es => es)).2.2.2
    [Event.log 1]).2.trans (by decide)⟩

end Topology


namespace Syslog

/-! Lemmas about `LogEvent.insert` and `LogEvent.find`. -/

lemma find_map_overwrite (log : LogEvent) (k q : LookupBuf) (v : Value)
    (h : ¬ k = q) :
    ((log.map (fun p => if p.1 = k then (k, v) else p)).find?
      (fun p => p.1 = q)) = log.find? (fun p => p.1 = q) := by
  induction log with
  | nil => rfl
  | cons p rest ih =>
    by_cases hp : p.1 = k
    · rw [List.map_cons, if_pos hp,
        List.find?_cons_of_neg _ (by simp [h]),
        List.find?_cons_of_neg _ (by simp [hp, h]), ih]
    · rw [List.map_cons, if_neg hp]
      by_cases hq : p.1 = q
      · rw [List.find?_cons_of_pos _ (by simp [hq]),
          List.find?_cons_of_pos _ (by simp [hq])]
      · rw [List.find?_cons_of_neg _ (by simp [hq]),
          List.find?_cons_of_neg _ (by simp [hq]), ih]

lemma find_append_one (log : LogEvent) (k q : LookupBuf) (v : Value)
    (h : ¬ k = q) :
    ((log ++ [(k, v)]).find? (fun p => p.1 = q))
      = log.find? (fun p => p.1 = q) := by
  induction log with
  | nil =>
    rw [List.nil_append, List.find?_cons_of_neg _ (by simp [h])]
  | cons p rest ih =>
    by_cases hq : p.1 = q
    · rw [List.cons_append, List.find?_cons_of_pos _ (by simp [hq]),
        List.find?_cons_of_pos _ (by simp [hq])]
    · rw [List.cons_append, List.find?_cons_of_neg _ (by simp [hq]),
        List.find?_cons_of_neg _ (by simp [hq]), ih]

lemma find_insert_ne (log : LogEvent) (k q : LookupBuf) (v : Value)
    (h : ¬ k = q) : (log.insert k v).find q = log.find q := by
  unfold LogEvent.insert LogEvent.find
  by_cases ha : log.any (fun p => p.1 = k)
  · rw [if_pos ha, find_map_overwrite log k q v h]
  · rw [if_neg ha, find_append_one log k q v h]

lemma find_insert_self (log : LogEvent) (k : LookupBuf) (v : Value) :
    (log.insert k v).find k = some v := by
  unfold LogEvent.insert LogEvent.find
  by_cases ha : log.any (fun p => p.1 = k)
  · rw [if_pos ha]
    induction log with
    | nil => simp at ha
    | cons p rest ih =>
      by_cases hp : p.1 = k
      · rw [List.map_cons, if_pos hp,
          List.find?_cons_of_pos _ (by simp)]
        rfl
      · rw [List.map_cons, if_neg hp,
          List.find?_cons_of_neg _ (by simp [hp])]
        refine ih ?_
        rw [List.any_cons] at ha
        rcases Bool.or_eq_true_iff.mp ha with hd | hd
        · exact absurd (of_decide_eq_true hd) hp
        · exact hd
  · rw [if_neg ha]
    induction log with
    | nil =>
      rw [List.nil_append, List.find?_cons_of_pos _ (by simp)]
      rfl
    | cons p rest ih =>
      have hcomp : ¬ p.1 = k ∧ ¬ rest.any (fun p => p.1 = k) := by
        constructor
        · intro hc
          exact ha (by simp [List.any_cons, hc])
        · intro hc
          exact ha (by simp [List.any_cons, hc])
      rw [List.cons_append,
        List.find?_cons_of_neg _ (by simp [hcomp.1])]
      exact ih hcomp.2

lemma find_insertOpt_ne (log : LogEvent) (k q : LookupBuf)
    (v : Option Value) (h : ¬ k = q) :
    (log.insertOpt k v).find q = log.find q := by
  cases v with
  | none => rfl
  | some v => exact find_insert_ne log k q v h

lemma lookupFromStr_length (id : String) :
    1 ≤ (lookupFromStr id).length := by
  unfold lookupFromStr
  cases h : id.splitOn "." <;> simp

/-- The structured-data fold of `insert_fields_from_syslog` only inserts
paths of at least two segments, so single-segment lookups are preserved. -/
lemma sd_fold_find (q : LookupBuf) (hq : q.length = 1) :
    ∀ (sds : List (String × List (String × String))) (ev : LogEvent),
    (sds.foldl (fun log elem =>
      elem.2.foldl (fun log nv =>
        log.insert (lookupFromStr elem.1 ++ [nv.1]) (Value.str nv.2)) log)
      ev).find q = ev.find q := by
  intro sds
  induction sds with
  | nil => intro ev; rfl
  | cons elem rest ih =>
    intro ev
    rw [List.foldl_cons, ih]
    have inner : ∀ (params : List (String × String)) (ev2 : LogEvent),
        (params.foldl (fun log nv =>
          log.insert (lookupFromStr elem.1 ++ [nv.1]) (Value.str nv.2))
          ev2).find q = ev2.find q := by
      intro params
      induction params with
      | nil => intro ev2; rfl
      | cons nv prest ihp =>
        intro ev2
        rw [List.foldl_cons, ihp, find_insert_ne]
        intro hc
        have h1 : 1 ≤ (lookupFromStr elem.1).length :=
          lookupFromStr_length elem.1
        have h2 : (lookupFromStr elem.1 ++ [nv.1]).length = q.length := by
          rw [hc]
        rw [List.length_append, List.length_singleton, hq] at h2
        omega
    exact inner elem.2 ev

/-- `insert_fields_from_syslog` preserves the value at any single-segment
path other than the seven fixed syslog field paths. -/
lemma insert_fields_find_one (ev : LogEvent) (parsed : ParsedMessage)
    (q : LookupBuf) (hq : q.length = 1)
    (h1 : ¬ hostnameLookup = q) (h2 : ¬ severityLookup = q)
    (h3 : ¬ facilityLookup = q) (h4 : ¬ versionLookup = q)
    (h5 : ¬ appnameLookup = q) (h6 : ¬ msgidLookup = q)
    (h7 : ¬ procidLookup = q) :
    (insert_fields_from_syslog ev parsed).find q = ev.find q := by
  unfold insert_fields_from_syslog
  rw [sd_fold_find q hq, find_insertOpt_ne _ _ _ _ h7,
    find_insertOpt_ne _ _ _ _ h6, find_insertOpt_ne _ _ _ _ h5,
    find_insertOpt_ne _ _ _ _ h4, find_insertOpt_ne _ _ _ _ h3,
    find_insertOpt_ne _ _ _ _ h2, find_insertOpt_ne _ _ _ _ h1]

end Syslog

namespace Syslog

/-- C9 counterexample: the claim fails as stated when the configured host
key is the source-type key itself — `event_from_str` inserts the host after
the source type, so the returned event carries the host value `h`, not
`"syslog"`, under the source-type key. -/
theorem event_from_str_counterexample :
    (match event_from_str ["source_type"] (some "h")
        ⟨"m", none, none, none, none, none, none, none, none, []⟩ 0 with
      | some ev => LogEvent.find ev source_type_key
      | none => none)
      = some (Value.str "h") ∧
    ¬ (Value.str "h" = Value.str "syslog") := by
  constructor
  · rfl
  · decide

/-- C9 (amended): `event_from_str` returns `Some(event)` for every input —
it never returns `None` — and the returned log event always contains the
timestamp key set to the parsed syslog timestamp when present, otherwise to
the current time; whenever the configured host key differs from the
source-type key, the event also contains the source-type key set to
`"syslog"`. -/
theorem event_from_str_amended (host_key : LookupBuf)
    (default_host : Option String) (parsed : ParsedMessage) (now : Nat) :
    ∃ ev, event_from_str host_key default_host parsed now = some ev ∧
      LogEvent.find ev timestamp_key
        = some (Value.ts (match parsed.timestamp with
            | some ts => ts
            | none => now)) ∧
      (¬ host_key = source_type_key →
        LogEvent.find ev source_type_key = some (Value.str "syslog")) := by
  rcases hts : parsed.timestamp with _ | ts <;>
    rcases hh : parsed.hostname with _ | ph <;>
      rcases hd : default_host with _ | dh <;>
        simp only [event_from_str, hh, hd, hts] <;>
        refine ⟨_, rfl, ?_, fun hk => ?_⟩ <;>
        first
          | (rw [insert_fields_find_one _ _ timestamp_key (by decide)
               (by decide) (by decide) (by decide) (by decide) (by decide)
               (by decide) (by decide), find_insert_self])
          | (rw [insert_fields_find_one _ _ source_type_key (by decide)
               (by decide) (by decide) (by decide) (by decide) (by decide)
               (by decide) (by decide),
               find_insert_ne _ _ _ _ (by decide)]
             first
               | rw [find_insert_ne _ _ _ _ hk]
               | skip
             first
               | rw [find_insert_ne _ _ _ _ (by decide)]
               | skip
             rw [find_insert_self])

/-- Witness for the amended C9 theorem at a concrete parse with no
timestamp: the event exists, carries `source_type = "syslog"` and
`timestamp = now`. -/
theorem event_from_str_amended_witness :
    ∃ ev, event_from_str ["host"] none
        ⟨"m", none, none, none, none, none, none, none, none, []⟩ 3
        = some ev ∧
      LogEvent.find ev source_type_key = some (Value.str "syslog") ∧
      LogEvent.find ev timestamp_key = some (Value.ts 3) :=
  (event_from_str_amended ["host"] none
      ⟨"m", none, none, none, none, none, none, none, none, []⟩ 3).elim
    (fun ev h => ⟨ev, h.1, h.2.2 (by decide), h.2.1⟩)

/-- C10: `SyslogDecoder::decode` applies RFC 6587 octet-counting framing if
and only if the first byte is an ASCII digit `1`-`9` (49..=57), falling back
to the newline codec otherwise; in octet-counting mode, with no space
delimiter it returns `Ok(None)` while the buffer is shorter than
`max_length` and an error once it reaches `max_length`; it errors when the
length prefix does not parse as a decimal number and when a fully framed
payload is not valid UTF-8. -/
theorem decoder_octet_framing (d : SyslogDecoder) (src : List Nat) :
    (∀ b rest, src = b :: rest → 49 ≤ b → b ≤ 57 →
      decode d src = octet_decode d src) ∧
    (∀ b rest, src = b :: rest → (b < 49 ∨ 57 < b) →
      decode d src = d.other.decodeFn src) ∧
    (src = [] → decode d src = d.other.decodeFn src) ∧
    (src.findIdx? (fun b => b == 32) = none →
      (src.length < d.other.max_length →
        octet_decode d src = .ok (none, src)) ∧
      (d.other.max_length ≤ src.length →
        octet_decode d src = .error "Frame length limit exceeded")) ∧
    (∀ i, src.findIdx? (fun b => b == 32) = some i →
      rustParseUsize (src.take i) = none →
      octet_decode d src
        = .error "Unable to decode message len as number") ∧
    (∀ i len, src.findIdx? (fun b => b == 32) = some i →
      rustParseUsize (src.take i) = some len →
      i + 1 + len ≤ src.length →
      validUtf8 ((src.drop (i + 1)).take len) = false →
      octet_decode d src = .error "Unable to decode message as UTF8") := by
  refine ⟨?_, ?_, ?_, ?_, ?_, ?_⟩
  · intro b rest h h1 h2
    subst h
    simp [decode, checked_decode, h1, h2]
  · intro b rest h hb
    subst h
    have hcond : ¬ (49 ≤ b ∧ b ≤ 57) := by
      rcases hb with hb | hb
      · exact fun hc => absurd hc.1 (Nat.not_le.mpr hb)
      · exact fun hc => absurd hc.2 (Nat.not_le.mpr hb)
    simp only [decode, checked_decode]
    rw [if_neg (by
      intro hc
      exact hcond ⟨of_decide_eq_true (Bool.and_eq_true_iff.mp hc).1,
        of_decide_eq_true (Bool.and_eq_true_iff.mp hc).2⟩)]
  · intro h
    subst h
    rfl
  · intro hf
    constructor
    · intro hlen
      simp [octet_decode, hf, hlen]
    · intro hlen
      simp [octet_decode, hf, Nat.not_lt.mpr hlen]
  · intro i hf hparse
    simp [octet_decode, hf, hparse]
  · intro i len hf hparse hle hutf
    simp [octet_decode, hf, hparse, hle, hutf]

/-- Witness for the C10 theorem at concrete buffers (max length 5): an
octet-counting dispatch, a fallback dispatch, a frame-limit error, a bad
length prefix and a non-UTF-8 payload. -/
theorem decoder_octet_framing_witness :
    decode ⟨⟨5, fun s => .ok (none, s)⟩⟩ [49, 32]
      = octet_decode ⟨⟨5, fun s => .ok (none, s)⟩⟩ [49, 32] ∧
    decode ⟨⟨5, fun s => .ok (none, s)⟩⟩ [97] = .ok (none, [97]) ∧
    octet_decode ⟨⟨5, fun s => .ok (none, s)⟩⟩ [50, 50, 50, 50, 50]
      = .error "Frame length limit exceeded" ∧
    octet_decode ⟨⟨5, fun s => .ok (none, s)⟩⟩ [49, 97, 32]
      = .error "Unable to decode message len as number" ∧
    octet_decode ⟨⟨5, fun s => .ok (none, s)⟩⟩ [49, 32, 255]
      = .error "Unable to decode message as UTF8" :=
  ⟨(decoder_octet_framing ⟨⟨5, fun s => .ok (none, s)⟩⟩ [49, 32]).1
      49 [32] rfl (by decide) (by decide),
   ((decoder_octet_framing ⟨⟨5, fun s => .ok (none, s)⟩⟩ [97]).2.1
      97 [] rfl (Or.inr (by decide))).trans rfl,
   ((decoder_octet_framing ⟨⟨5, fun s => .ok (none, s)⟩⟩
      [50, 50, 50, 50, 50]).2.2.2.1 (by decide)).2 (by decide),
   (decoder_octet_framing ⟨⟨5, fun s => .ok (none, s)⟩⟩
      [49, 97, 32]).2.2.2.2.1 2 (by decide) (by decide),
   (decoder_octet_framing ⟨⟨5, fun s => .ok (none, s)⟩⟩
      [49, 32, 255]).2.2.2.2.2 1 1 (by decide) (by decide) (by decide)
      (by decide)⟩

end Syslog
